import Mathlib

/-!
Verification of the BARRA lead-management pipeline.

This file is a shallow embedding, in Lean 4, of the lead processing and
stage-assignment core of the repository:

* `src/lib/services/nvidiaAIService.ts` (analyzer, stage selector, bulk selector),
* `src/lib/services/facebookService.ts` (PII hashing, CAPI event construction),
* `src/app/api/webhooks/facebook/route.ts` (leadgen and messaging webhook
  orchestrators, inline lead-quality scorer),
* `src/lib/services/conversationAnalysisService.ts` (conversation re-analysis
  orchestrator),
* `src/app/api/pipelines/route.ts` (`calculateLeadQuality`).

Modelling conventions:

* Remote calls (the NVIDIA chat completion endpoint, Supabase, the Graph API)
  are modelled by explicit environment records carrying the outcome each call
  would produce; a thrown JavaScript exception is an `Except.error`.
* JavaScript truthiness on optional strings (`undefined` and `""` are falsy)
  is modelled by `jsTruthy`/`jsOrStr`/`jsOrOpt`; `Number(x) || d` by
  `jsNumberOr` (`none` models an absent field or a NaN conversion).
* `JSON.parse` together with the markdown-fence stripping of the service is
  modelled by an abstract `parse` function from the reply text to an optional
  record of the dynamically accessed fields; `none` models a parse that throws.
* The two webhook orchestrators and the re-analysis service are modelled as
  trace functions producing the ordered list of observable effects
  (database writes, selector invocations, CAPI attempts).
-/

namespace Barra

/-- JavaScript truthiness of a possibly-undefined string: `undefined` and the
empty string are falsy. -/
def jsTruthy : Option String → Bool
  | some s => s ≠ ""
  | none => false

/-- JavaScript `x || d` for a possibly-undefined string `x` and a string
default `d`. -/
def jsOrStr (x : Option String) (d : String) : String :=
  match x with
  | some s => if s = "" then d else s
  | none => d

/-- JavaScript `x || y` where both operands are possibly-undefined strings. -/
def jsOrOpt (x y : Option String) : Option String :=
  match x with
  | some s => if s = "" then y else s
  | none => y

/-- JavaScript `Number(x) || d`: `none` models an absent field or a value whose
numeric conversion is NaN; the number `0` is falsy. -/
def jsNumberOr (x : Option ℚ) (d : ℚ) : ℚ :=
  match x with
  | some c => if c = 0 then d else c
  | none => d

/-- JavaScript `String.prototype.toLowerCase` (ASCII fragment). -/
def jsToLower (s : String) : String := String.mk (s.toList.map Char.toLower)

/-- JavaScript `String.prototype.includes`: `jsIncludes s sub` is
`s.includes(sub)`. -/
def jsIncludes (s sub : String) : Bool :=
  decide (sub.toList <:+: s.toList)

/-- JavaScript `String.prototype.trim`: drop whitespace from both ends. -/
def jsTrim (s : String) : String :=
  String.mk (((s.toList.dropWhile Char.isWhitespace).reverse.dropWhile
    Char.isWhitespace).reverse)

/-- `value.replace(/\D/g, '')` — keep only the decimal digits. -/
def digitsOnly (s : String) : String := String.mk (s.toList.filter Char.isDigit)

/-! ## Data model (`src/lib/types`, `part_000`) -/

/-- `PipelineStage` (the fields the core reads). -/
structure PipelineStage where
  id : String
  name : String
  order_index : Int
  capi_event_name : Option String
  deriving Repr, DecidableEq

/-- `Contact` (the fields the core reads). -/
structure Contact where
  id : String
  email : Option String
  phone : Option String
  first_name : Option String
  last_name : Option String
  full_name : Option String
  source : String
  deriving Repr, DecidableEq

/-- The `ai_analysis` record produced by `analyzeContact`. -/
structure AIAnalysis where
  summary : String
  intent : String
  urgency : String
  tags : List String
  deriving Repr, DecidableEq

/-- The `facebook_configs` row fields the orchestrators read. -/
structure FacebookConfig where
  user_id : String
  page_access_token : String
  dataset_id : Option String
  deriving Repr, DecidableEq

/-- A pipeline row joined with its stages. -/
structure Pipeline where
  id : String
  pipeline_stages : List PipelineStage
  deriving Repr, DecidableEq

/-! ## `callNvidiaAPI` (`nvidiaAIService.ts` lines 30–67) -/

/-- The environment a `callNvidiaAPI` invocation runs in: the value of
`process.env.NVIDIA_API_KEY`, the HTTP outcome, and the fields of the
completion payload the function reads. -/
structure NvidiaEnv where
  apiKey : Option String
  responseOk : Bool
  errorText : String
  firstChoiceContent : Option String
  totalTokens : Option Nat
  deriving Repr

/-- The resolved value of `callNvidiaAPI`. -/
structure ApiResult where
  content : String
  tokensUsed : Nat
  deriving Repr, DecidableEq

/-- `callNvidiaAPI`: throws when the API key is unset (falsy) or the response
is non-2xx; otherwise returns `choices[0]?.message?.content || ''` and
`usage?.total_tokens || 0`. -/
def callNvidiaAPI (env : NvidiaEnv) : Except String ApiResult :=
  if !(jsTruthy env.apiKey) then
    .error "NVIDIA_API_KEY is not set"
  else if !env.responseOk then
    .error ("NVIDIA API error: " ++ env.errorText)
  else
    .ok { content := jsOrStr env.firstChoiceContent ""
          tokensUsed := env.totalTokens.getD 0 }

/-! ## `analyzeContact` (`nvidiaAIService.ts` lines 72–152) -/

/-- The dynamically accessed fields of the JSON object parsed from the model
reply in `analyzeContact`. `none` models an absent (or, for `tags`,
non-array) field. -/
structure ParsedAnalysis where
  summary : Option String
  intent : Option String
  urgency : Option String
  tags : Option (List String)
  deriving Repr, DecidableEq

/-- Lines 122–151 of `nvidiaAIService.ts`: build the analysis from the parse
outcome. `none` models a `JSON.parse` (or field access on a non-object)
that threw, handled by the `catch` branch. -/
def analyzeFromParsed : Option ParsedAnalysis → AIAnalysis
  | some a =>
      { summary := jsOrStr a.summary "No summary available"
        intent := jsOrStr a.intent "Unknown"
        urgency :=
          match a.urgency with
          | some u => if u = "low" || u = "medium" || u = "high" then u else "medium"
          | none => "medium"
        tags := a.tags.getD [] }
  | none =>
      { summary := "Analysis pending"
        intent := "Unknown"
        urgency := "medium"
        tags := [] }

/-- The resolved value of `analyzeContact`. -/
structure AnalyzeResult where
  analysis : AIAnalysis
  tokensUsed : Nat
  deriving Repr, DecidableEq

/-- `analyzeContact`. The contact and message history only shape the prompt
sent to the model, which the environment's reply already reflects; `parse`
models the fence-stripping plus `JSON.parse` pipeline applied to the reply.
Note the `await callNvidiaAPI(...)` on line 117 sits outside the
`try`/`catch`, so an API failure propagates to the caller. -/
def analyzeContact (env : NvidiaEnv) (parse : String → Option ParsedAnalysis) :
    Except String AnalyzeResult :=
  match callNvidiaAPI env with
  | .error e => .error e
  | .ok result =>
      .ok { analysis := analyzeFromParsed (parse result.content)
            tokensUsed := result.tokensUsed }

/-! ## `assignContactToStage` (`nvidiaAIService.ts` lines 256–341) -/

/-- The dynamically accessed fields of the JSON object parsed from the model
reply in `assignContactToStage`. -/
structure ParsedAssignment where
  stage_id : Option String
  confidence : Option ℚ
  reasoning : Option String
  deriving Repr

/-- The `ContactStageSuggestion` result record. `recommended_stage_id` is
`none` when the JavaScript value is `undefined` (empty stage list). -/
structure ContactStageSuggestion where
  contact_id : String
  recommended_stage_id : Option String
  confidence : ℚ
  reasoning : String
  deriving Repr, DecidableEq

/-- Line 318: `stages.find(s => s.id === assignment.stage_id)?.id ||
stages[0]?.id`. -/
def validStage (stages : List PipelineStage) (sid : Option String) : Option String :=
  jsOrOpt ((stages.find? (fun s => some s.id = sid)).map (·.id))
    ((stages.head?).map (·.id))

/-- `assignContactToStage`. As for `analyzeContact`, the prompt inputs are
subsumed by the environment, and the `await callNvidiaAPI(...)` on line 303
sits outside the `try`/`catch`: an API failure propagates. -/
def assignContactToStage (env : NvidiaEnv) (parse : String → Option ParsedAssignment)
    (contactId : String) (stages : List PipelineStage) :
    Except String (ContactStageSuggestion × Nat) :=
  match callNvidiaAPI env with
  | .error e => .error e
  | .ok result =>
      match parse result.content with
      | some assignment =>
          .ok ({ contact_id := contactId
                 recommended_stage_id := validStage stages assignment.stage_id
                 confidence := jsNumberOr assignment.confidence (1/2)
                 reasoning := jsOrStr assignment.reasoning "" },
               result.tokensUsed)
      | none =>
          .ok ({ contact_id := contactId
                 recommended_stage_id := some (jsOrStr ((stages.head?).map (·.id)) "")
                 confidence := 3/10
                 reasoning := "Default assignment - analysis failed" },
               result.tokensUsed)

/-! ## `bulkAssignContacts` (`nvidiaAIService.ts` lines 346–423) -/

/-- One entry of the JSON array parsed from the model reply in
`bulkAssignContacts`. -/
structure ParsedBulkItem where
  contact_id : Option String
  stage_id : Option String
  confidence : Option ℚ
  deriving Repr

/-- One entry of the `assignments` result of `bulkAssignContacts`. -/
structure BulkAssignment where
  contact_id : Option String
  stage_id : Option String
  confidence : ℚ
  deriving Repr, DecidableEq

/-- `bulkAssignContacts`. `parse` yields the parsed array (with
`Array.isArray(x) ? x : []` already modelled by the caller supplying the
list); `none` models a `JSON.parse` that threw, handled by the `catch`
branch that defaults every input contact to the first stage. -/
def bulkAssignContacts (env : NvidiaEnv) (parse : String → Option (List ParsedBulkItem))
    (contacts : List Contact) (stages : List PipelineStage) :
    Except String (List BulkAssignment × Nat) :=
  match callNvidiaAPI env with
  | .error e => .error e
  | .ok result =>
      match parse result.content with
      | some items =>
          .ok (items.map (fun a =>
                 { contact_id := a.contact_id
                   stage_id := validStage stages a.stage_id
                   confidence := jsNumberOr a.confidence (1/2) }),
               result.tokensUsed)
      | none =>
          .ok (contacts.map (fun c =>
                 { contact_id := some c.id
                   stage_id := some (jsOrStr ((stages.head?).map (·.id)) "")
                   confidence := 3/10 }),
               result.tokensUsed)

/-! ## `facebookService.ts`: `hashUserData` (lines 11–13) and the user-data
part of `sendConversionEvent` (lines 610–650) -/

/-- `hashUserData(value) = CryptoJS.SHA256(value.toLowerCase().trim()).toString()`.
The SHA-256 digest itself is library code external to this repository and is
abstracted as the function parameter `sha256`; the normalization is the
repository's. -/
def hashUserData (sha256 : String → String) (value : String) : String :=
  sha256 (jsTrim (jsToLower value))

/-- The `userData` argument of `sendConversionEvent`. -/
structure CAPIUserDataIn where
  email : Option String
  phone : Option String
  firstName : Option String
  lastName : Option String
  externalId : Option String
  deriving Repr, DecidableEq

/-- The `user_data` object of the CAPI event envelope. -/
structure CAPIUserData where
  em : Option (List String)
  ph : Option (List String)
  fn : Option (List String)
  ln : Option (List String)
  external_id : Option (List String)
  deriving Repr, DecidableEq

/-- Lines 631–646 of `facebookService.ts`: hash and add user data to the
event envelope. Each field is added only when truthy; the phone number is
reduced to digits before hashing; the external id is not hashed. -/
def buildCapiUserData (sha256 : String → String) (u : CAPIUserDataIn) : CAPIUserData :=
  { em := if jsTruthy u.email then some [hashUserData sha256 (u.email.getD "")] else none
    ph := if jsTruthy u.phone then some [hashUserData sha256 (digitsOnly (u.phone.getD ""))] else none
    fn := if jsTruthy u.firstName then some [hashUserData sha256 (u.firstName.getD "")] else none
    ln := if jsTruthy u.lastName then some [hashUserData sha256 (u.lastName.getD "")] else none
    external_id := if jsTruthy u.externalId then some [u.externalId.getD ""] else none }

/-! ## Lead-quality scorers -/

/-- The inline scorer of `processLeadgenEvent`
(`route.ts` lines 142–159, persisted clamped on line 169): identity fields
contribute 10 each, urgency 40/25/10, custom-field count 10 per key capped at
30, final value clamped to 100. -/
def inlineLeadQualityScore (hasEmail hasPhone hasFullName : Bool)
    (urgency : String) (customFieldCount : Nat) : Nat :=
  let s1 := (if hasEmail then 10 else 0) + (if hasPhone then 10 else 0) +
    (if hasFullName then 10 else 0)
  let s2 := s1 +
    (if urgency = "high" then 40 else if urgency = "medium" then 25
     else if urgency = "low" then 10 else 0)
  let s3 := s2 + min 30 (customFieldCount * 10)
  min 100 s3

/-- The contact record read by `calculateLeadQuality`
(`src/app/api/pipelines/route.ts`). `custom_fields_keys` lists the distinct
keys of the `custom_fields` object. -/
structure QContact where
  email : Option String
  phone : Option String
  full_name : Option String
  ai_analysis : Option (Option String × Option String)
  custom_fields_keys : List String
  deriving Repr

/-- `calculateLeadQuality` (`pipelines/route.ts` lines 191–226). The
`ai_analysis` pair is `(urgency, intent)`. -/
def calculateLeadQuality (c : QContact) : Nat :=
  let s1 := (if jsTruthy c.email then 10 else 0) + (if jsTruthy c.phone then 10 else 0) +
    (if jsTruthy c.full_name then 10 else 0)
  let s2 := s1 +
    (match c.ai_analysis with
     | none => 0
     | some (urgency, intent) =>
         (if urgency = some "high" then 20 else if urgency = some "medium" then 10
          else if urgency = some "low" then 5 else 0) +
         (if jsTruthy intent ∧ (intent.getD "").length > 20 then 20
          else if jsTruthy intent then 10 else 0))
  let s3 := s2 + min 30 (c.custom_fields_keys.length * 10)
  min 100 s3

/-! ## Effect traces of the orchestrators

The webhook handlers and the re-analysis service are modelled as functions
from an environment (the rows and remote outcomes each read would produce)
to the ordered list of observable effects they perform. Both handlers wrap
their body in a `try`/`catch` that logs, so a thrown step truncates the
trace instead of propagating. -/

/-- One observable effect of an orchestrator run. -/
inductive Event
  /-- `supabase.from('contacts').insert(...)` committing a new contact. -/
  | insertContact
  /-- `supabase.from('contacts').update({ ai_analysis: ... })`, recording the
  urgency written. -/
  | updateContactAnalysis (urgency : String)
  /-- `supabase.from('ai_analysis_logs').insert(...)`. -/
  | insertLog
  /-- `supabase.from('messages').insert(...)`. -/
  | insertMessage
  /-- A plain `supabase.from('contact_stage_assignments').insert(...)`. -/
  | insertAssignment (stageId : Option String)
  /-- `supabase.from('contact_stage_assignments').upsert(..., { onConflict })`. -/
  | upsertAssignment (stageId : String) (onConflict : List String)
  /-- An invocation of `assignContactToStage`. -/
  | selectorInvoked
  /-- An invocation of `sendConversionEvent` with the stage's event name. -/
  | capiSend (eventName : String)
  /-- The local `catch` that logs a failed `sendConversionEvent`. -/
  | capiFailLogged
  deriving Repr, DecidableEq

/-- Is this effect a write to `contact_stage_assignments`? -/
def Event.isAssignmentWrite : Event → Bool
  | .insertAssignment _ => true
  | .upsertAssignment _ _ => true
  | _ => false

/-- Is this effect a database write? -/
def Event.isDbWrite : Event → Bool
  | .insertContact => true
  | .updateContactAnalysis _ => true
  | .insertLog => true
  | .insertMessage => true
  | .insertAssignment _ => true
  | .upsertAssignment _ _ => true
  | _ => false

/-- Is this effect part of a CAPI export attempt? -/
def Event.isCapi : Event → Bool
  | .capiSend _ => true
  | .capiFailLogged => true
  | _ => false

/-- The database writes of a trace, in order. -/
def dbWrites (t : List Event) : List Event := t.filter Event.isDbWrite

/-- The prefix of a trace before its first CAPI effect. -/
def beforeCapi (t : List Event) : List Event := t.takeWhile (fun e => !e.isCapi)

/-- Insert a stage into a list sorted by `order_index`, before the first
strictly greater entry. -/
def insertStage (s : PipelineStage) : List PipelineStage → List PipelineStage
  | [] => [s]
  | t :: ts =>
      if s.order_index ≤ t.order_index then s :: t :: ts
      else t :: insertStage s ts

/-- `pipeline_stages.sort((a, b) => a.order_index - b.order_index)`: a stable
sort by ascending `order_index` (`Array.prototype.sort` is stable), modelled
as insertion sort. -/
def sortStages : List PipelineStage → List PipelineStage
  | [] => []
  | s :: rest => insertStage s (sortStages rest)

/-- The CAPI sub-step shared by all three orchestrator paths: if the landed
stage carries a truthy `capi_event_name` and the config a truthy
`dataset_id`, `sendConversionEvent` is attempted inside a local
`try`/`catch` whose failure branch only logs. -/
def capiStep (stage : Option PipelineStage) (cfg : FacebookConfig) (capiOk : Bool) :
    List Event :=
  match stage with
  | some st =>
      if jsTruthy st.capi_event_name ∧ jsTruthy cfg.dataset_id then
        if capiOk then [Event.capiSend (st.capi_event_name.getD "")]
        else [Event.capiSend (st.capi_event_name.getD ""), Event.capiFailLogged]
      else []
  | none => []

/-! ## `processLeadgenEvent` (`route.ts` lines 71–283) -/

/-- The environment of one `processLeadgenEvent` run. -/
structure LeadgenEnv where
  /-- The `facebook_configs` row for the event's page, if any. -/
  fbConfig : Option FacebookConfig
  /-- Whether `fetchLeadDetails` resolves (it throws on a non-2xx). -/
  fetchLeadOk : Bool
  /-- The inserted contact row; `none` models `contactError`. -/
  contact : Option Contact
  /-- The number of keys of `parsed.customFields`. -/
  customFieldCount : Nat
  /-- Environment of the `analyzeContact` call. -/
  analyzeEnv : NvidiaEnv
  /-- Parse pipeline of the `analyzeContact` call. -/
  analyzeParse : String → Option ParsedAnalysis
  /-- The owner's default pipeline joined with stages, if any. -/
  pipeline : Option Pipeline
  /-- Environment of the `assignContactToStage` call. -/
  assignEnv : NvidiaEnv
  /-- Parse pipeline of the `assignContactToStage` call. -/
  assignParse : String → Option ParsedAssignment
  /-- Whether `sendConversionEvent` resolves. -/
  capiOk : Bool

/-- The effect trace of `processLeadgenEvent`. The body is wrapped in a
`try`/`catch` that only logs, so a throwing step ends the trace. The stage
assignment on lines 222–230 is a plain `insert` carrying the (possibly
`undefined`) recommended stage id. -/
def processLeadgenEvent (env : LeadgenEnv) : List Event :=
  match env.fbConfig with
  | none => []
  | some fbConfig =>
    if !env.fetchLeadOk then []
    else match env.contact with
    | none => []
    | some contact =>
      match analyzeContact env.analyzeEnv env.analyzeParse with
      | .error _ => [Event.insertContact]
      | .ok ar =>
        let afterAnalysis := [Event.insertContact,
          Event.updateContactAnalysis ar.analysis.urgency, Event.insertLog]
        match env.pipeline with
        | none => afterAnalysis
        | some pipeline =>
          if pipeline.pipeline_stages.length = 0 then afterAnalysis
          else
            let stages := sortStages pipeline.pipeline_stages
            match assignContactToStage env.assignEnv env.assignParse contact.id stages with
            | .error _ => afterAnalysis ++ [Event.selectorInvoked]
            | .ok (sug, _) =>
              let assignedStage :=
                stages.find? (fun s => some s.id = sug.recommended_stage_id)
              afterAnalysis ++
                [Event.selectorInvoked,
                 Event.insertAssignment sug.recommended_stage_id,
                 Event.insertLog] ++
                capiStep assignedStage fbConfig env.capiOk

/-! ## `reanalyzeContactWithConversation`
(`conversationAnalysisService.ts` lines 29–183) -/

/-- The fields of the `analyzeConversationIntent` result the orchestrator
reads. `urgency = none` models a parsed object lacking the `urgency`
property, so the spread over the base analysis leaves its urgency intact. -/
structure ConversationInsights where
  urgency : Option String
  should_move_stage : Bool
  deriving Repr, DecidableEq

/-- `analyzeConversationIntent` (lines 188–263) never throws: an API failure
or absent JSON match (`intentResult = none`) yields the default with the base
analysis's urgency and `should_move_stage: false`. -/
def analyzeConversationIntent (baseUrgency : String)
    (intentResult : Option ConversationInsights) : ConversationInsights :=
  intentResult.getD { urgency := some baseUrgency, should_move_stage := false }

/-- The environment of one `reanalyzeContactWithConversation` run. -/
structure ReanalyzeEnv where
  contact : Contact
  fbConfig : FacebookConfig
  /-- Environment of the `analyzeContact` call. -/
  analyzeEnv : NvidiaEnv
  analyzeParse : String → Option ParsedAnalysis
  /-- Outcome of `analyzeConversationIntent`'s model call and JSON match. -/
  intentResult : Option ConversationInsights
  /-- `stage_id` of the contact's current `contact_stage_assignments` row. -/
  currentAssignmentStageId : Option String
  /-- The owner's default pipeline joined with stages, if any. -/
  pipeline : Option Pipeline
  /-- Environment of the `assignContactToStage` call. -/
  assignEnv : NvidiaEnv
  assignParse : String → Option ParsedAssignment
  /-- Whether `sendConversionEvent` resolves. -/
  capiOk : Bool

/-- The effect trace of `reanalyzeContactWithConversation`. The whole body is
inside a `try`/`catch` that only logs, so a throwing `analyzeContact` or
`assignContactToStage` ends the trace. The reassignment (lines 120–130) is an
upsert with `onConflict: 'contact_id,pipeline_id'`, performed only when the
found stage differs from the current assignment's. -/
def reanalyzeContactWithConversation (env : ReanalyzeEnv) : List Event :=
  match analyzeContact env.analyzeEnv env.analyzeParse with
  | .error _ => []
  | .ok ar =>
    let ci := analyzeConversationIntent ar.analysis.urgency env.intentResult
    let afterUpdate := [Event.updateContactAnalysis (ci.urgency.getD ar.analysis.urgency)]
    match env.pipeline with
    | none => afterUpdate
    | some pipeline =>
      if pipeline.pipeline_stages.length = 0 then afterUpdate
      else
        let stages := sortStages pipeline.pipeline_stages
        if ci.should_move_stage then
          match assignContactToStage env.assignEnv env.assignParse env.contact.id stages with
          | .error _ => afterUpdate ++ [Event.selectorInvoked]
          | .ok (sug, _) =>
            match stages.find? (fun s => some s.id = sug.recommended_stage_id) with
            | some newStage =>
                if some newStage.id ≠ env.currentAssignmentStageId then
                  afterUpdate ++
                    [Event.selectorInvoked,
                     Event.upsertAssignment newStage.id ["contact_id", "pipeline_id"],
                     Event.insertLog] ++
                    capiStep (some newStage) env.fbConfig env.capiOk
                else afterUpdate ++ [Event.selectorInvoked]
            | none => afterUpdate ++ [Event.selectorInvoked]
        else afterUpdate

/-! ## `processMessagingEvent` (`route.ts` lines 289–502) -/

/-- Lines 404–418: keyword detection over the lower-cased latest message.
Returns `(shouldMoveStage, newUrgency)`, where `newUrgency` starts from the
model-derived urgency and is overwritten by the matching keyword class. -/
def messagingStageDecision (messageText : String) (modelUrgency : String) :
    Bool × String :=
  let latestMessage := jsToLower messageText
  if jsIncludes latestMessage "buy" || jsIncludes latestMessage "purchase" ||
      jsIncludes latestMessage "order" then
    (true, "high")
  else if jsIncludes latestMessage "not interested" ||
      jsIncludes latestMessage "cancel" then
    (true, "low")
  else if jsIncludes latestMessage "price" || jsIncludes latestMessage "quote" ||
      jsIncludes latestMessage "cost" then
    (true, "medium")
  else (false, modelUrgency)

/-- The environment of one `processMessagingEvent` run. -/
structure MessagingEnv where
  /-- `event.message?.text`. -/
  messageText : Option String
  /-- The `facebook_configs` row for the page, if any. -/
  fbConfig : Option FacebookConfig
  /-- The contact matched by PSID or lead id, if any. -/
  matchingContact : Option Contact
  /-- Whether the `messages` insert commits (its error is logged, not thrown). -/
  messageInsertOk : Bool
  /-- The owner's default pipeline joined with stages, if any. -/
  pipeline : Option Pipeline
  /-- Environment of the `analyzeContact` call. -/
  analyzeEnv : NvidiaEnv
  analyzeParse : String → Option ParsedAnalysis
  /-- `stage_id` of the contact's current `contact_stage_assignments` row. -/
  currentAssignmentStageId : Option String
  /-- Environment of the `assignContactToStage` call. -/
  assignEnv : NvidiaEnv
  assignParse : String → Option ParsedAssignment
  /-- Whether `sendConversionEvent` resolves. -/
  capiOk : Bool

/-- The effect trace of `processMessagingEvent`. Early returns: no text, no
page config, no matching contact, or a contact whose `source` is not
`webhook`. The reassignment (lines 456–466) is an upsert with
`onConflict: 'contact_id,pipeline_id'`, performed only when the found stage
differs from the current assignment's. -/
def processMessagingEvent (env : MessagingEnv) : List Event :=
  match env.messageText with
  | none => []
  | some messageText =>
    match env.fbConfig with
    | none => []
    | some fbConfig =>
      match env.matchingContact with
      | none => []
      | some matchingContact =>
        if matchingContact.source ≠ "webhook" then []
        else
          let afterMessage := if env.messageInsertOk then [Event.insertMessage] else []
          match env.pipeline with
          | none => afterMessage
          | some pipeline =>
            if pipeline.pipeline_stages.length = 0 then afterMessage
            else
              let stages := sortStages pipeline.pipeline_stages
              match analyzeContact env.analyzeEnv env.analyzeParse with
              | .error _ => afterMessage
              | .ok ar =>
                let decision := messagingStageDecision messageText ar.analysis.urgency
                let afterUpdate := afterMessage ++ [Event.updateContactAnalysis decision.2]
                if decision.1 then
                  match assignContactToStage env.assignEnv env.assignParse
                      matchingContact.id stages with
                  | .error _ => afterUpdate ++ [Event.selectorInvoked]
                  | .ok (sug, _) =>
                    match stages.find? (fun s => some s.id = sug.recommended_stage_id) with
                    | some newStage =>
                        if some newStage.id ≠ env.currentAssignmentStageId then
                          afterUpdate ++
                            [Event.selectorInvoked,
                             Event.upsertAssignment newStage.id ["contact_id", "pipeline_id"]] ++
                            capiStep (some newStage) fbConfig env.capiOk
                        else afterUpdate ++ [Event.selectorInvoked]
                    | none => afterUpdate ++ [Event.selectorInvoked]
                else afterUpdate

/-! ## Shared lemmas -/

/-- The corrected stage id always names one of the candidate stages. -/
theorem validStage_mem (s0 : PipelineStage) (rest : List PipelineStage)
    (sid : Option String) :
    ∃ i, validStage (s0 :: rest) sid = some i ∧
      i ∈ (s0 :: rest).map PipelineStage.id := by
  unfold validStage jsOrOpt
  cases hf : (s0 :: rest).find? (fun s => some s.id = sid) with
  | none => exact ⟨s0.id, rfl, by simp⟩
  | some s =>
      have hs : s ∈ s0 :: rest := List.mem_of_find?_eq_some hf
      by_cases h : s.id = ""
      · exact ⟨s0.id, by simp [h], by simp⟩
      · exact ⟨s.id, by simp [h], List.mem_map_of_mem _ hs⟩

/-- When no candidate stage carries the parsed id, the first candidate is
substituted. -/
theorem validStage_not_found (s0 : PipelineStage) (rest : List PipelineStage)
    (sid : Option String) (h : ∀ s ∈ s0 :: rest, some s.id ≠ sid) :
    validStage (s0 :: rest) sid = some s0.id := by
  unfold validStage jsOrOpt
  have hf : (s0 :: rest).find? (fun s => some s.id = sid) = none := by
    rw [List.find?_eq_none]
    intro s hs
    simpa using h s hs
  rw [hf]
  simp

/-- `jsOrStr (some x) ""` is `x`. -/
theorem jsOrStr_empty_default (x : String) : jsOrStr (some x) "" = x := by
  unfold jsOrStr
  by_cases h : x = "" <;> simp [h]

/-! ## C1 -/

/-- C1: for every `assignContactToStage` call that resolves on a non-empty
candidate stage list, the returned `recommended_stage_id` names one of the
candidates; and when the model's parsed reply names an id outside the
candidate set, the returned id is the first candidate's. -/
theorem stage_selector_validity
    (env : NvidiaEnv) (parse : String → Option ParsedAssignment)
    (cid : String) (s0 : PipelineStage) (rest : List PipelineStage)
    (sug : ContactStageSuggestion) (tok : Nat)
    (h : assignContactToStage env parse cid (s0 :: rest) = .ok (sug, tok)) :
    (∃ i, sug.recommended_stage_id = some i ∧
       i ∈ (s0 :: rest).map PipelineStage.id) ∧
    (∀ r pa, callNvidiaAPI env = .ok r → parse r.content = some pa →
       (∀ s ∈ s0 :: rest, some s.id ≠ pa.stage_id) →
       sug.recommended_stage_id = some s0.id) := by
  unfold assignContactToStage at h
  cases hc : callNvidiaAPI env with
  | error e => rw [hc] at h; exact absurd h (by simp)
  | ok r =>
      rw [hc] at h
      dsimp only at h
      cases hp : parse r.content with
      | some pa =>
          rw [hp] at h
          dsimp only at h
          injection h with h'
          injection h' with ha hb
          have hsug : sug.recommended_stage_id = validStage (s0 :: rest) pa.stage_id :=
            (congrArg ContactStageSuggestion.recommended_stage_id ha).symm
          constructor
          · obtain ⟨i, hi, him⟩ := validStage_mem s0 rest pa.stage_id
            exact ⟨i, hsug ▸ hi, him⟩
          · intro r' pa' hc' hp' hout
            have hr : r' = r := by
              injection hc' with h''; exact h''.symm
            have hpa : pa' = pa := by
              rw [hr, hp] at hp'; cases hp'; rfl
            rw [hsug, validStage_not_found s0 rest pa.stage_id (hpa ▸ hout)]
      | none =>
          rw [hp] at h
          dsimp only at h
          injection h with h'
          injection h' with ha hb
          have hsug : sug.recommended_stage_id = some (jsOrStr (some s0.id) "") :=
            (congrArg ContactStageSuggestion.recommended_stage_id ha).symm
          constructor
          · exact ⟨s0.id, by rw [hsug, jsOrStr_empty_default], by simp⟩
          · intro r' pa' hc' hp' _
            have hr : r' = r := by
              injection hc' with h''; exact h''.symm
            rw [hr, hp] at hp'
            exact absurd hp' (by simp)

/-- C1 witness: a concrete run whose parsed reply names the id `"zzz"`,
outside the candidate set `{s2, s1}`; the selector returns the first
candidate `s2`. -/
theorem stage_selector_validity_witness :
    (⟨"s2", "Contacted", 0, none⟩ : PipelineStage).id ∈
      ([⟨"s2", "Contacted", 0, none⟩, ⟨"s1", "New Lead", 1, none⟩] :
        List PipelineStage).map PipelineStage.id ∧
    assignContactToStage ⟨some "key", true, "", some "reply", some 7⟩
      (fun _ => some ⟨some "zzz", some 1, some "r"⟩) "c1"
      [⟨"s2", "Contacted", 0, none⟩, ⟨"s1", "New Lead", 1, none⟩] =
      .ok (⟨"c1", some "s2", 1, "r"⟩, 7) ∧
    (∃ i, (⟨"c1", some "s2", 1, "r"⟩ : ContactStageSuggestion).recommended_stage_id
       = some i ∧
       i ∈ ([⟨"s2", "Contacted", 0, none⟩, ⟨"s1", "New Lead", 1, none⟩] :
         List PipelineStage).map PipelineStage.id) := by
  refine ⟨by decide, by rfl, ?_⟩
  exact (stage_selector_validity ⟨some "key", true, "", some "reply", some 7⟩
    (fun _ => some ⟨some "zzz", some 1, some "r"⟩) "c1"
    ⟨"s2", "Contacted", 0, none⟩ [⟨"s1", "New Lead", 1, none⟩]
    ⟨"c1", some "s2", 1, "r"⟩ 7 (by rfl)).1

/-! ## C2 -/

/-- C2 counterexample: with the API key unset — one of the failure modes the
claim covers — `analyzeContact` and `assignContactToStage` propagate the
exception thrown by `callNvidiaAPI` (whose `await` on lines 117 and 303 sits
outside the `try`/`catch`) instead of returning a fallback result. -/
theorem analyzer_selector_raise_on_api_failure :
    analyzeContact ⟨none, true, "", some "x", some 5⟩ (fun _ => none) =
      .error "NVIDIA_API_KEY is not set" ∧
    assignContactToStage ⟨none, true, "", some "x", some 5⟩ (fun _ => none) "c1"
      [⟨"s1", "New Lead", 0, none⟩] =
      .error "NVIDIA_API_KEY is not set" :=
  ⟨rfl, rfl⟩

/-- C2 amended: the fallbacks cover only unparseable model output. When the
remote call resolves but its reply does not parse, `analyzeContact` returns a
structurally valid analysis and `assignContactToStage` returns the first
candidate stage with confidence 0.3 and reasoning
"Default assignment - analysis failed"; when the remote call itself fails
(missing API key or non-2xx response), both propagate the exception to the
caller. -/
theorem fallback_scope
    (env : NvidiaEnv) (parseA : String → Option ParsedAnalysis)
    (parseS : String → Option ParsedAssignment) (cid : String)
    (s0 : PipelineStage) (rest : List PipelineStage) :
    (∀ r, callNvidiaAPI env = .ok r → parseA r.content = none →
       analyzeContact env parseA =
         .ok ⟨⟨"Analysis pending", "Unknown", "medium", []⟩, r.tokensUsed⟩) ∧
    (∀ r, callNvidiaAPI env = .ok r → parseS r.content = none →
       assignContactToStage env parseS cid (s0 :: rest) =
         .ok (⟨cid, some s0.id, 3/10, "Default assignment - analysis failed"⟩,
              r.tokensUsed)) ∧
    (∀ e, callNvidiaAPI env = .error e →
       analyzeContact env parseA = .error e ∧
       assignContactToStage env parseS cid (s0 :: rest) = .error e) := by
  refine ⟨?_, ?_, ?_⟩
  · intro r hc hp
    unfold analyzeContact
    rw [hc]
    dsimp only
    rw [hp]
    rfl
  · intro r hc hp
    unfold assignContactToStage
    rw [hc]
    dsimp only
    rw [hp]
    dsimp only
    rw [show ((s0 :: rest).head?).map (·.id) = some s0.id from rfl]
    rw [jsOrStr_empty_default]
  · intro e hc
    constructor
    · unfold analyzeContact; rw [hc]
    · unfold assignContactToStage; rw [hc]

/-- C2 witness: a resolving call with unparseable output yields the analyzer
fallback and the selector default at a concrete input. -/
theorem fallback_scope_witness :
    analyzeContact ⟨some "k", true, "", some "bad", some 9⟩ (fun _ => none) =
      .ok ⟨⟨"Analysis pending", "Unknown", "medium", []⟩, 9⟩ ∧
    assignContactToStage ⟨some "k", true, "", some "bad", some 9⟩ (fun _ => none)
      "c7" [⟨"s1", "New Lead", 0, none⟩] =
      .ok (⟨"c7", some "s1", 3/10, "Default assignment - analysis failed"⟩, 9) := by
  have h := fallback_scope ⟨some "k", true, "", some "bad", some 9⟩
    (fun _ => none) (fun _ => none) "c7" ⟨"s1", "New Lead", 0, none⟩ []
  exact ⟨h.1 ⟨"bad", 9⟩ (by rfl) (by rfl), h.2.1 ⟨"bad", 9⟩ (by rfl) (by rfl)⟩

/-! ## C3 -/

/-- The urgency produced by `analyzeContact`'s field validation is always one
of the three enum values. -/
theorem analyzeFromParsed_urgency_mem (o : Option ParsedAnalysis) :
    (analyzeFromParsed o).urgency = "low" ∨ (analyzeFromParsed o).urgency = "medium" ∨
    (analyzeFromParsed o).urgency = "high" := by
  cases o with
  | none => right; left; rfl
  | some a =>
      cases ha : a.urgency with
      | none => right; left; simp [analyzeFromParsed, ha]
      | some u =>
          by_cases h1 : u = "low"
          · left; simp [analyzeFromParsed, ha, h1]
          · by_cases h2 : u = "medium"
            · right; left; simp [analyzeFromParsed, ha, h2]
            · by_cases h3 : u = "high"
              · right; right; simp [analyzeFromParsed, ha, h3]
              · right; left; simp [analyzeFromParsed, ha, h1, h2, h3]

/-- A model-supplied urgency outside the enum is coerced to `"medium"`. -/
theorem analyzeFromParsed_urgency_clamp (a : ParsedAnalysis) (u : String)
    (ha : a.urgency = some u) (h1 : u ≠ "low") (h2 : u ≠ "medium") (h3 : u ≠ "high") :
    (analyzeFromParsed (some a)).urgency = "medium" := by
  simp [analyzeFromParsed, ha, h1, h2, h3]

/-- C3 counterexample: a model reply that parses as a JSON object with every
required field absent (for example `{}`) yields summary
`"No summary available"` — the per-field default — not the claimed total
fallback summary `"Analysis pending"`. -/
theorem analyzer_absent_fields_counterexample :
    analyzeContact ⟨some "k", true, "", some "{}", some 4⟩
      (fun _ => some ⟨none, none, none, none⟩) =
      .ok ⟨⟨"No summary available", "Unknown", "medium", []⟩, 4⟩ ∧
    "No summary available" ≠ "Analysis pending" :=
  ⟨rfl, by decide⟩

/-- C3 amended: only an unparseable reply yields exactly
`{summary: "Analysis pending", intent: "Unknown", urgency: "medium", tags: []}`;
a reply that parses with absent fields gets per-field defaults (summary
`"No summary available"`, intent `"Unknown"`, urgency `"medium"`, tags `[]`).
In every resolving invocation the returned urgency is in {low, medium, high},
and a model-supplied urgency outside that set is coerced to `"medium"`. -/
theorem analyzer_fallback_and_urgency_clamp
    (env : NvidiaEnv) (parse : String → Option ParsedAnalysis)
    (ar : AnalyzeResult) (h : analyzeContact env parse = .ok ar) :
    (∀ r, callNvidiaAPI env = .ok r → parse r.content = none →
       ar.analysis = ⟨"Analysis pending", "Unknown", "medium", []⟩) ∧
    (∀ r, callNvidiaAPI env = .ok r → parse r.content = some ⟨none, none, none, none⟩ →
       ar.analysis = ⟨"No summary available", "Unknown", "medium", []⟩) ∧
    (ar.analysis.urgency = "low" ∨ ar.analysis.urgency = "medium" ∨
       ar.analysis.urgency = "high") ∧
    (∀ r pa u, callNvidiaAPI env = .ok r → parse r.content = some pa →
       pa.urgency = some u → u ≠ "low" → u ≠ "medium" → u ≠ "high" →
       ar.analysis.urgency = "medium") := by
  unfold analyzeContact at h
  cases hc : callNvidiaAPI env with
  | error e => rw [hc] at h; exact absurd h (by simp)
  | ok r =>
      rw [hc] at h
      dsimp only at h
      injection h with h'
      have har : ar.analysis = analyzeFromParsed (parse r.content) :=
        (congrArg AnalyzeResult.analysis h').symm
      refine ⟨?_, ?_, ?_, ?_⟩
      · intro r' hc' hp'
        have hr : r' = r := by injection hc' with h''; exact h''.symm
        rw [hr] at hp'
        rw [har, hp']
        rfl
      · intro r' hc' hp'
        have hr : r' = r := by injection hc' with h''; exact h''.symm
        rw [hr] at hp'
        rw [har, hp']
        rfl
      · rw [har]; exact analyzeFromParsed_urgency_mem (parse r.content)
      · intro r' pa u hc' hp' hu h1 h2 h3
        have hr : r' = r := by injection hc' with h''; exact h''.symm
        rw [hr] at hp'
        rw [har, hp']
        exact analyzeFromParsed_urgency_clamp pa u hu h1 h2 h3

/-- C3 witness: at a concrete resolving input whose reply parses with an
urgency of `"urgent"` — outside the enum — the stored urgency is
`"medium"`. -/
theorem analyzer_fallback_and_urgency_clamp_witness :
    analyzeContact ⟨some "k", true, "", some "x", some 3⟩
      (fun _ => some ⟨some "s", some "i", some "urgent", some ["t"]⟩) =
      .ok ⟨⟨"s", "i", "medium", ["t"]⟩, 3⟩ ∧
    (⟨⟨"s", "i", "medium", ["t"]⟩, 3⟩ : AnalyzeResult).analysis.urgency = "medium" := by
  refine ⟨by rfl, ?_⟩
  exact (analyzer_fallback_and_urgency_clamp ⟨some "k", true, "", some "x", some 3⟩
    (fun _ => some ⟨some "s", some "i", some "urgent", some ["t"]⟩)
    ⟨⟨"s", "i", "medium", ["t"]⟩, 3⟩ (by rfl)).2.2.2 ⟨"x", 3⟩
    ⟨some "s", some "i", some "urgent", some ["t"]⟩ "urgent"
    (by rfl) (by rfl) (by rfl) (by decide) (by decide) (by decide)

/-! ## C7 -/

/-- A 0-or-`n` contribution is monotone in its boolean guard. -/
theorem ite_score_mono (a b : Bool) (n : ℕ) (h : a = true → b = true) :
    (if a then n else 0) ≤ (if b then n else 0) := by
  cases a with
  | false => simp
  | true => rw [h rfl]

/-- C7: both lead-quality scorers are bounded by 100 (they are ℕ-valued, so
bounded below by 0), and, holding the urgency (and for
`calculateLeadQuality` the whole `ai_analysis`) fixed, each is monotonically
non-decreasing in the populated identity fields and in the number of distinct
custom-field keys. -/
theorem lead_quality_bounded_monotone :
    (∀ e p f u c, inlineLeadQualityScore e p f u c ≤ 100) ∧
    (∀ ct : QContact, calculateLeadQuality ct ≤ 100) ∧
    (∀ e e' p p' f f' u c c', (e = true → e' = true) → (p = true → p' = true) →
       (f = true → f' = true) → c ≤ c' →
       inlineLeadQualityScore e p f u c ≤ inlineLeadQualityScore e' p' f' u c') ∧
    (∀ ct ct' : QContact, ct.ai_analysis = ct'.ai_analysis →
       (jsTruthy ct.email = true → jsTruthy ct'.email = true) →
       (jsTruthy ct.phone = true → jsTruthy ct'.phone = true) →
       (jsTruthy ct.full_name = true → jsTruthy ct'.full_name = true) →
       ct.custom_fields_keys.length ≤ ct'.custom_fields_keys.length →
       calculateLeadQuality ct ≤ calculateLeadQuality ct') := by
  refine ⟨?_, ?_, ?_, ?_⟩
  · intro e p f u c
    unfold inlineLeadQualityScore
    exact min_le_left 100 _
  · intro ct
    unfold calculateLeadQuality
    exact min_le_left 100 _
  · intro e e' p p' f f' u c c' he hp hf hc
    unfold inlineLeadQualityScore
    refine min_le_min (le_refl 100) ?_
    refine Nat.add_le_add (Nat.add_le_add ?_ (le_refl _)) ?_
    · exact Nat.add_le_add (Nat.add_le_add (ite_score_mono e e' 10 he)
        (ite_score_mono p p' 10 hp)) (ite_score_mono f f' 10 hf)
    · exact min_le_min (le_refl 30) (Nat.mul_le_mul_right 10 hc)
  · intro ct ct' haa he hp hf hc
    unfold calculateLeadQuality
    rw [haa]
    refine min_le_min (le_refl 100) ?_
    refine Nat.add_le_add (Nat.add_le_add ?_ (le_refl _)) ?_
    · exact Nat.add_le_add (Nat.add_le_add
        (ite_score_mono (jsTruthy ct.email) (jsTruthy ct'.email) 10 he)
        (ite_score_mono (jsTruthy ct.phone) (jsTruthy ct'.phone) 10 hp))
        (ite_score_mono (jsTruthy ct.full_name) (jsTruthy ct'.full_name) 10 hf)
    · exact min_le_min (le_refl 30) (Nat.mul_le_mul_right 10 hc)

/-- C7 witness: adding a phone number to a concrete contact (urgency held at
`"medium"`) does not decrease either score, and both scores are within
bounds. -/
theorem lead_quality_bounded_monotone_witness :
    inlineLeadQualityScore true false true "medium" 1 ≤
      inlineLeadQualityScore true true true "medium" 2 ∧
    inlineLeadQualityScore true true true "medium" 2 ≤ 100 ∧
    calculateLeadQuality ⟨some "a@b.com", none, some "Jo", some (some "medium", some "buy"), ["k"]⟩ ≤
      calculateLeadQuality
        ⟨some "a@b.com", some "555", some "Jo", some (some "medium", some "buy"), ["k", "j"]⟩ ∧
    calculateLeadQuality
      ⟨some "a@b.com", some "555", some "Jo", some (some "medium", some "buy"), ["k", "j"]⟩ ≤ 100 := by
  have h := lead_quality_bounded_monotone
  refine ⟨?_, h.1 true true true "medium" 2, ?_, h.2.1 _⟩
  · exact h.2.2.1 true true false true true true "medium" 1 2
      (fun a => a) (by intro h'; cases h') (fun a => a) (by decide)
  · exact h.2.2.2 _ _ rfl (fun a => a) (by intro h'; cases h') (fun a => a) (by decide)

/-! ## C9 -/

/-- C9: `hashUserData` is deterministic and normalizes case and surrounding
whitespace before hashing, so `hashUserData("A@B.com")` equals
`hashUserData("a@b.com ")` for every digest function; and
`sendConversionEvent` passes email, digits-only phone, first name and last
name through `hashUserData` when building the event's `user_data`. -/
theorem hash_normalization_and_capi (sha256 : String → String) :
    (∀ x y : String, x = y → hashUserData sha256 x = hashUserData sha256 y) ∧
    hashUserData sha256 "A@B.com" = hashUserData sha256 "a@b.com " ∧
    (∀ u : CAPIUserDataIn,
       (∀ e, u.email = some e → e ≠ "" →
          (buildCapiUserData sha256 u).em = some [hashUserData sha256 e]) ∧
       (∀ p, u.phone = some p → p ≠ "" →
          (buildCapiUserData sha256 u).ph = some [hashUserData sha256 (digitsOnly p)]) ∧
       (∀ f, u.firstName = some f → f ≠ "" →
          (buildCapiUserData sha256 u).fn = some [hashUserData sha256 f]) ∧
       (∀ l, u.lastName = some l → l ≠ "" →
          (buildCapiUserData sha256 u).ln = some [hashUserData sha256 l])) := by
  refine ⟨fun x y hxy => by rw [hxy], ?_, ?_⟩
  · unfold hashUserData
    congr 1
  · intro u
    refine ⟨?_, ?_, ?_, ?_⟩
    · intro e he hne
      unfold buildCapiUserData
      simp [jsTruthy, he, hne]
    · intro p hp hne
      unfold buildCapiUserData
      simp [jsTruthy, hp, hne]
    · intro f hf hne
      unfold buildCapiUserData
      simp [jsTruthy, hf, hne]
    · intro l hl hne
      unfold buildCapiUserData
      simp [jsTruthy, hl, hne]

/-- C9 witness: with the identity digest, the two claim inputs hash equal,
and a concrete `sendConversionEvent` user-data build hashes each field. -/
theorem hash_normalization_and_capi_witness :
    hashUserData (fun s => s) "A@B.com" = hashUserData (fun s => s) "a@b.com " ∧
    (buildCapiUserData (fun s => s)
       ⟨some "A@B.com", some "555-1212", some "Jo", some "Doe", some "c1"⟩).ph =
      some [hashUserData (fun s => s) (digitsOnly "555-1212")] := by
  have h := hash_normalization_and_capi (fun s => s)
  exact ⟨h.2.1,
    (h.2.2 ⟨some "A@B.com", some "555-1212", some "Jo", some "Doe", some "c1"⟩).2.1
      "555-1212" rfl (by decide)⟩

/-! ## C8 -/

/-- C8 counterexample: a resolving bulk call whose reply parses as the empty
JSON array returns no assignment at all for the single input contact — an
omitted contact is not defaulted to the first stage. -/
theorem bulk_omitted_contact_counterexample :
    bulkAssignContacts ⟨some "k", true, "", some "reply", some 6⟩
      (fun _ => some []) [⟨"c1", none, none, none, none, none, "webhook"⟩]
      [⟨"s1", "New Lead", 0, none⟩] = .ok ([], 6) ∧
    ([] : List BulkAssignment).length ≠
      ([⟨"c1", none, none, none, none, none, "webhook"⟩] : List Contact).length :=
  ⟨rfl, by decide⟩

/-- C8 amended: the per-item validity guard holds — every returned
`stage_id` names a supplied stage, and an item whose parsed `stage_id`
matches no supplied stage is mapped to the first stage's id — and the result
mirrors the parsed reply item-for-item, so contacts the reply omits receive
no assignment; only when the reply is unparseable is every input contact
assigned the first stage (with confidence 0.3). -/
theorem bulk_assign_guard
    (env : NvidiaEnv) (parse : String → Option (List ParsedBulkItem))
    (contacts : List Contact) (s0 : PipelineStage) (rest : List PipelineStage)
    (res : List BulkAssignment) (tok : Nat)
    (h : bulkAssignContacts env parse contacts (s0 :: rest) = .ok (res, tok)) :
    (∀ b ∈ res, ∃ i, b.stage_id = some i ∧ i ∈ (s0 :: rest).map PipelineStage.id) ∧
    (∀ r items, callNvidiaAPI env = .ok r → parse r.content = some items →
       res.map BulkAssignment.contact_id = items.map ParsedBulkItem.contact_id) ∧
    (∀ r items a, callNvidiaAPI env = .ok r → parse r.content = some items →
       a ∈ items → (∀ s ∈ s0 :: rest, some s.id ≠ a.stage_id) →
       (⟨a.contact_id, some s0.id, jsNumberOr a.confidence (1/2)⟩ : BulkAssignment) ∈ res) ∧
    (∀ r, callNvidiaAPI env = .ok r → parse r.content = none →
       res = contacts.map (fun c => ⟨some c.id, some s0.id, 3/10⟩)) := by
  unfold bulkAssignContacts at h
  cases hc : callNvidiaAPI env with
  | error e => rw [hc] at h; exact absurd h (by simp)
  | ok r =>
      rw [hc] at h
      dsimp only at h
      cases hp : parse r.content with
      | some items =>
          rw [hp] at h
          dsimp only at h
          injection h with h'
          injection h' with ha hb
          refine ⟨?_, ?_, ?_, ?_⟩
          · intro b hb'
            rw [← ha] at hb'
            obtain ⟨a, _, haf⟩ := List.mem_map.mp hb'
            obtain ⟨i, hi, him⟩ := validStage_mem s0 rest a.stage_id
            exact ⟨i, by rw [← haf]; exact hi, him⟩
          · intro r' items' hc' hp'
            have hr : r' = r := by injection hc' with h''; exact h''.symm
            rw [hr] at hp'
            rw [hp] at hp'
            injection hp' with hi'
            rw [← hi', ← ha, List.map_map]
            rfl
          · intro r' items' a hc' hp' hain hout
            have hr : r' = r := by injection hc' with h''; exact h''.symm
            rw [hr] at hp'
            rw [hp] at hp'
            injection hp' with hi'
            rw [← ha]
            refine List.mem_map.mpr ⟨a, hi' ▸ hain, ?_⟩
            rw [validStage_not_found s0 rest a.stage_id hout]
          · intro r' hc' hp'
            have hr : r' = r := by injection hc' with h''; exact h''.symm
            rw [hr, hp] at hp'
            exact absurd hp' (by simp)
      | none =>
          rw [hp] at h
          dsimp only at h
          injection h with h'
          injection h' with ha hb
          refine ⟨?_, ?_, ?_, ?_⟩
          · intro b hb'
            rw [← ha] at hb'
            obtain ⟨c, _, hcf⟩ := List.mem_map.mp hb'
            refine ⟨s0.id, ?_, by simp⟩
            rw [← hcf]
            dsimp only
            rw [show ((s0 :: rest).head?).map (·.id) = some s0.id from rfl,
              jsOrStr_empty_default]
          · intro r' items' hc' hp'
            have hr : r' = r := by injection hc' with h''; exact h''.symm
            rw [hr, hp] at hp'
            exact absurd hp' (by simp)
          · intro r' items' a hc' hp' _ _
            have hr : r' = r := by injection hc' with h''; exact h''.symm
            rw [hr, hp] at hp'
            exact absurd hp' (by simp)
          · intro r' hc' hp'
            rw [← ha]
            refine List.map_congr_left ?_
            intro c _
            dsimp only
            rw [show ((s0 :: rest).head?).map (·.id) = some s0.id from rfl,
              jsOrStr_empty_default]

/-- C8 witness: a concrete run whose parsed reply covers one of two contacts
with an out-of-set stage id: the returned list has exactly that one entry,
corrected to the first stage; the omitted contact `c2` appears nowhere. -/
theorem bulk_assign_guard_witness :
    bulkAssignContacts ⟨some "k", true, "", some "reply", some 8⟩
      (fun _ => some [⟨some "c1", some "zzz", some 1⟩])
      [⟨"c1", none, none, none, none, none, "webhook"⟩,
       ⟨"c2", none, none, none, none, none, "webhook"⟩]
      [⟨"sA", "New Lead", 0, none⟩, ⟨"sB", "Contacted", 1, none⟩] =
      .ok ([⟨some "c1", some "sA", 1⟩], 8) ∧
    (⟨some "c1", some "sA", 1⟩ : BulkAssignment) ∈
      ([⟨some "c1", some "sA", 1⟩] : List BulkAssignment) := by
  refine ⟨by rfl, ?_⟩
  exact (bulk_assign_guard ⟨some "k", true, "", some "reply", some 8⟩
    (fun _ => some [⟨some "c1", some "zzz", some 1⟩])
    [⟨"c1", none, none, none, none, none, "webhook"⟩,
     ⟨"c2", none, none, none, none, none, "webhook"⟩]
    ⟨"sA", "New Lead", 0, none⟩ [⟨"sB", "Contacted", 1, none⟩]
    [⟨some "c1", some "sA", 1⟩] 8 (by rfl)).2.2.1 ⟨"reply", 8⟩
    [⟨some "c1", some "zzz", some 1⟩] ⟨some "c1", some "zzz", some 1⟩
    (by rfl) (by rfl) (by simp) (by decide)

/-! ## Trace lemmas -/

/-- A CAPI effect is neither a database write nor an assignment write. -/
theorem Event.capi_disjoint (e : Event) (h : e.isCapi = true) :
    e.isDbWrite = false ∧ e.isAssignmentWrite = false := by
  cases e <;> simp_all [Event.isCapi, Event.isDbWrite, Event.isAssignmentWrite]

/-- Every effect emitted by the CAPI sub-step is a CAPI effect. -/
theorem capiStep_all_capi (st : Option PipelineStage) (cfg : FacebookConfig)
    (ok : Bool) : ∀ e ∈ capiStep st cfg ok, e.isCapi = true := by
  intro e he
  unfold capiStep at he
  cases st with
  | none => simp at he
  | some s =>
      try dsimp only at he
      by_cases h : jsTruthy s.capi_event_name ∧ jsTruthy cfg.dataset_id
      · rw [if_pos h] at he
        cases ok with
        | true =>
            simp at he
            rw [he]; rfl
        | false =>
            rcases (by simpa using he : _ ∨ _) with h1 | h1 <;> (rw [h1]; rfl)
      · rw [if_neg h] at he; simp at he

/-- The CAPI sub-step contributes no database write. -/
theorem dbWrites_append_capiStep (l : List Event) (st : Option PipelineStage)
    (cfg : FacebookConfig) (ok : Bool) :
    dbWrites (l ++ capiStep st cfg ok) = dbWrites l := by
  unfold dbWrites
  rw [List.filter_append]
  have h : (capiStep st cfg ok).filter Event.isDbWrite = [] := by
    rw [List.filter_eq_nil_iff]
    intro e he
    rw [(Event.capi_disjoint e (capiStep_all_capi st cfg ok e he)).1]
    simp
  rw [h, List.append_nil]

/-- `takeWhile` passes over a prefix all of whose elements satisfy the
predicate. -/
theorem takeWhile_append_all {α : Type} (p : α → Bool) (l₁ l₂ : List α)
    (h : ∀ e ∈ l₁, p e = true) :
    (l₁ ++ l₂).takeWhile p = l₁ ++ l₂.takeWhile p := by
  induction l₁ with
  | nil => simp
  | cons a t ih =>
      rw [List.cons_append, List.takeWhile_cons, h a (by simp),
        ih (fun e he => h e (by simp [he]))]
      simp

/-- Catalog of the effects `processLeadgenEvent` can emit: in particular its
only write to `contact_stage_assignments` is a plain insert. -/
theorem leadgen_mem (envL : LeadgenEnv) (e : Event)
    (he : e ∈ processLeadgenEvent envL) :
    e = Event.insertContact ∨ (∃ u, e = Event.updateContactAnalysis u) ∨
    e = Event.insertLog ∨ e = Event.selectorInvoked ∨ e.isCapi = true ∨
    (∃ sid, e = Event.insertAssignment sid) := by
  unfold processLeadgenEvent at he
  cases hcfg : envL.fbConfig with
  | none => rw [hcfg] at he; simp at he
  | some fbConfig =>
      rw [hcfg] at he
      try dsimp only at he
      by_cases hf : envL.fetchLeadOk = true
      · rw [hf] at he
        rw [if_neg (by decide)] at he
        cases hct : envL.contact with
        | none => rw [hct] at he; simp at he
        | some contact =>
            rw [hct] at he
            try dsimp only at he
            cases ha : analyzeContact envL.analyzeEnv envL.analyzeParse with
            | error err =>
                rw [ha] at he
                simp at he
                exact Or.inl he
            | ok ar =>
                rw [ha] at he
                try dsimp only at he
                cases hp : envL.pipeline with
                | none =>
                    rw [hp] at he
                    rcases (by simpa using he : _ ∨ _ ∨ _) with h1 | h1 | h1
                    · exact Or.inl h1
                    · exact Or.inr (Or.inl ⟨_, h1⟩)
                    · exact Or.inr (Or.inr (Or.inl h1))
                | some pipeline =>
                    rw [hp] at he
                    try dsimp only at he
                    by_cases hlen : pipeline.pipeline_stages.length = 0
                    · rw [if_pos hlen] at he
                      rcases (by simpa using he : _ ∨ _ ∨ _) with h1 | h1 | h1
                      · exact Or.inl h1
                      · exact Or.inr (Or.inl ⟨_, h1⟩)
                      · exact Or.inr (Or.inr (Or.inl h1))
                    · rw [if_neg hlen] at he
                      cases hs : assignContactToStage envL.assignEnv envL.assignParse
                          contact.id (sortStages pipeline.pipeline_stages) with
                      | error err =>
                          rw [hs] at he
                          rcases (by simpa using he : _ ∨ _ ∨ _ ∨ _) with h1 | h1 | h1 | h1
                          · exact Or.inl h1
                          · exact Or.inr (Or.inl ⟨_, h1⟩)
                          · exact Or.inr (Or.inr (Or.inl h1))
                          · exact Or.inr (Or.inr (Or.inr (Or.inl h1)))
                      | ok sugtok =>
                          rw [hs] at he
                          try dsimp only at he
                          rw [List.mem_append] at he
                          rcases he with he | he
                          · rcases (by simpa using he :
                                _ ∨ _ ∨ _ ∨ _ ∨ _ ∨ _) with
                              h1 | h1 | h1 | h1 | h1 | h1
                            · exact Or.inl h1
                            · exact Or.inr (Or.inl ⟨_, h1⟩)
                            · exact Or.inr (Or.inr (Or.inl h1))
                            · exact Or.inr (Or.inr (Or.inr (Or.inl h1)))
                            · exact Or.inr (Or.inr (Or.inr (Or.inr (Or.inr ⟨_, h1⟩))))
                            · exact Or.inr (Or.inr (Or.inl h1))
                          · exact Or.inr (Or.inr (Or.inr (Or.inr (Or.inl
                              (capiStep_all_capi _ _ _ e he)))))
      · rw [Bool.not_eq_true] at hf
        rw [hf] at he
        simp at he

/-- Catalog of the effects `reanalyzeContactWithConversation` can emit: its
only write to `contact_stage_assignments` is a pair-keyed upsert, guarded by
the selected stage differing from the current assignment. -/
theorem reanalyze_mem (envR : ReanalyzeEnv) (e : Event)
    (he : e ∈ reanalyzeContactWithConversation envR) :
    (∃ u, e = Event.updateContactAnalysis u) ∨ e = Event.selectorInvoked ∨
    e = Event.insertLog ∨ e.isCapi = true ∨
    (∃ (ppl : Pipeline) (sug : ContactStageSuggestion) (tok : Nat)
       (ns : PipelineStage),
       envR.pipeline = some ppl ∧
       assignContactToStage envR.assignEnv envR.assignParse envR.contact.id
         (sortStages ppl.pipeline_stages) = .ok (sug, tok) ∧
       some ns.id = sug.recommended_stage_id ∧
       some ns.id ≠ envR.currentAssignmentStageId ∧
       e = Event.upsertAssignment ns.id ["contact_id", "pipeline_id"]) := by
  unfold reanalyzeContactWithConversation at he
  cases ha : analyzeContact envR.analyzeEnv envR.analyzeParse with
  | error err => rw [ha] at he; simp at he
  | ok ar =>
      rw [ha] at he
      try dsimp only at he
      cases hp : envR.pipeline with
      | none =>
          rw [hp] at he
          simp at he
          exact Or.inl ⟨_, he⟩
      | some ppl =>
          rw [hp] at he
          try dsimp only at he
          by_cases hlen : ppl.pipeline_stages.length = 0
          · rw [if_pos hlen] at he
            simp at he
            exact Or.inl ⟨_, he⟩
          · rw [if_neg hlen] at he
            by_cases hmv : (analyzeConversationIntent ar.analysis.urgency
                envR.intentResult).should_move_stage = true
            · rw [if_pos hmv] at he
              cases hs : assignContactToStage envR.assignEnv envR.assignParse
                  envR.contact.id (sortStages ppl.pipeline_stages) with
              | error err =>
                  rw [hs] at he
                  rcases (by simpa using he : _ ∨ _) with h1 | h1
                  · exact Or.inl ⟨_, h1⟩
                  · exact Or.inr (Or.inl h1)
              | ok sugtok =>
                  rw [hs] at he
                  try dsimp only at he
                  cases hfind : (sortStages ppl.pipeline_stages).find?
                      (fun s => some s.id = sugtok.1.recommended_stage_id) with
                  | none =>
                      rw [hfind] at he
                      rcases (by simpa using he : _ ∨ _) with h1 | h1
                      · exact Or.inl ⟨_, h1⟩
                      · exact Or.inr (Or.inl h1)
                  | some ns =>
                      rw [hfind] at he
                      try dsimp only at he
                      by_cases hne : some ns.id ≠ envR.currentAssignmentStageId
                      · rw [if_pos hne] at he
                        rw [List.mem_append] at he
                        rcases he with he | he
                        · rcases (by simpa using he : _ ∨ _ ∨ _ ∨ _) with
                            h1 | h1 | h1 | h1
                          · exact Or.inl ⟨_, h1⟩
                          · exact Or.inr (Or.inl h1)
                          · refine Or.inr (Or.inr (Or.inr (Or.inr
                              ⟨ppl, sugtok.1, sugtok.2, ns, rfl, ?_, ?_, hne, h1⟩)))
                            · simpa using hs
                            · simpa using List.find?_some hfind
                          · exact Or.inr (Or.inr (Or.inl h1))
                        · exact Or.inr (Or.inr (Or.inr (Or.inl
                            (capiStep_all_capi _ _ _ e he))))
                      · rw [if_neg hne] at he
                        rcases (by simpa using he : _ ∨ _) with h1 | h1
                        · exact Or.inl ⟨_, h1⟩
                        · exact Or.inr (Or.inl h1)
            · rw [if_neg hmv] at he
              simp at he
              exact Or.inl ⟨_, he⟩

/-- Catalog of the effects `processMessagingEvent` can emit: its only write
to `contact_stage_assignments` is a pair-keyed upsert, guarded by the
selected stage differing from the current assignment. -/
theorem messaging_mem (envM : MessagingEnv) (e : Event)
    (he : e ∈ processMessagingEvent envM) :
    e = Event.insertMessage ∨ (∃ u, e = Event.updateContactAnalysis u) ∨
    e = Event.selectorInvoked ∨ e.isCapi = true ∨
    (∃ (c : Contact) (ppl : Pipeline) (sug : ContactStageSuggestion) (tok : Nat)
       (ns : PipelineStage),
       envM.matchingContact = some c ∧ envM.pipeline = some ppl ∧
       assignContactToStage envM.assignEnv envM.assignParse c.id
         (sortStages ppl.pipeline_stages) = .ok (sug, tok) ∧
       some ns.id = sug.recommended_stage_id ∧
       some ns.id ≠ envM.currentAssignmentStageId ∧
       e = Event.upsertAssignment ns.id ["contact_id", "pipeline_id"]) := by
  unfold processMessagingEvent at he
  cases ht : envM.messageText with
  | none => rw [ht] at he; simp at he
  | some t =>
      rw [ht] at he
      try dsimp only at he
      cases hcfg : envM.fbConfig with
      | none => rw [hcfg] at he; simp at he
      | some cfg =>
          rw [hcfg] at he
          try dsimp only at he
          cases hct : envM.matchingContact with
          | none => rw [hct] at he; simp at he
          | some c =>
              rw [hct] at he
              try dsimp only at he
              by_cases hsrc : c.source ≠ "webhook"
              · rw [if_pos hsrc] at he; simp at he
              · rw [if_neg hsrc] at he
                have hmsg : ∀ e', e' ∈
                    (if envM.messageInsertOk then [Event.insertMessage] else []) →
                    e' = Event.insertMessage := by
                  intro e' he'
                  by_cases hio : envM.messageInsertOk = true
                  · rw [if_pos hio] at he'; simpa using he'
                  · rw [Bool.not_eq_true] at hio
                    rw [hio] at he'; simp at he'
                cases hp : envM.pipeline with
                | none =>
                    rw [hp] at he
                    exact Or.inl (hmsg e he)
                | some ppl =>
                    rw [hp] at he
                    try dsimp only at he
                    by_cases hlen : ppl.pipeline_stages.length = 0
                    · rw [if_pos hlen] at he
                      exact Or.inl (hmsg e he)
                    · rw [if_neg hlen] at he
                      cases ha : analyzeContact envM.analyzeEnv envM.analyzeParse with
                      | error err =>
                          rw [ha] at he
                          exact Or.inl (hmsg e he)
                      | ok ar =>
                          rw [ha] at he
                          try dsimp only at he
                          by_cases hmv :
                              (messagingStageDecision t ar.analysis.urgency).1 = true
                          · rw [if_pos hmv] at he
                            cases hs : assignContactToStage envM.assignEnv
                                envM.assignParse c.id
                                (sortStages ppl.pipeline_stages) with
                            | error err =>
                                rw [hs] at he
                                rw [List.mem_append] at he
                                rcases he with he | he
                                · rw [List.mem_append] at he
                                  rcases he with he | he
                                  · exact Or.inl (hmsg e he)
                                  · exact Or.inr (Or.inl ⟨_, by simpa using he⟩)
                                · exact Or.inr (Or.inr (Or.inl (by simpa using he)))
                            | ok sugtok =>
                                rw [hs] at he
                                try dsimp only at he
                                cases hfind : (sortStages ppl.pipeline_stages).find?
                                    (fun s => some s.id = sugtok.1.recommended_stage_id) with
                                | none =>
                                    rw [hfind] at he
                                    rw [List.mem_append] at he
                                    rcases he with he | he
                                    · rw [List.mem_append] at he
                                      rcases he with he | he
                                      · exact Or.inl (hmsg e he)
                                      · exact Or.inr (Or.inl ⟨_, by simpa using he⟩)
                                    · exact Or.inr (Or.inr (Or.inl (by simpa using he)))
                                | some ns =>
                                    rw [hfind] at he
                                    try dsimp only at he
                                    by_cases hne :
                                        some ns.id ≠ envM.currentAssignmentStageId
                                    · rw [if_pos hne] at he
                                      rw [List.mem_append] at he
                                      rcases he with he | he
                                      · rw [List.mem_append] at he
                                        rcases he with he | he
                                        · rw [List.mem_append] at he
                                          rcases he with he | he
                                          · exact Or.inl (hmsg e he)
                                          · exact Or.inr (Or.inl ⟨_, by simpa using he⟩)
                                        · rcases (by simpa using he : _ ∨ _) with h1 | h1
                                          · exact Or.inr (Or.inr (Or.inl h1))
                                          · refine Or.inr (Or.inr (Or.inr (Or.inr
                                              ⟨c, ppl, sugtok.1, sugtok.2, ns, rfl, rfl,
                                               ?_, ?_, hne, h1⟩)))
                                            · simpa using hs
                                            · simpa using List.find?_some hfind
                                      · exact Or.inr (Or.inr (Or.inr (Or.inl
                                          (capiStep_all_capi _ _ _ e he))))
                                    · rw [if_neg hne] at he
                                      rw [List.mem_append] at he
                                      rcases he with he | he
                                      · rw [List.mem_append] at he
                                        rcases he with he | he
                                        · exact Or.inl (hmsg e he)
                                        · exact Or.inr (Or.inl ⟨_, by simpa using he⟩)
                                      · exact Or.inr (Or.inr (Or.inl (by simpa using he)))
                          · rw [if_neg hmv] at he
                            rw [List.mem_append] at he
                            rcases he with he | he
                            · exact Or.inl (hmsg e he)
                            · exact Or.inr (Or.inl ⟨_, by simpa using he⟩)

/-! ## C4 -/

/-- Is this effect an upsert keyed on `(contact_id, pipeline_id)`? -/
def Event.isPairKeyedUpsert : Event → Bool
  | .upsertAssignment _ key => key = ["contact_id", "pipeline_id"]
  | _ => false

/-- C4 counterexample: a concrete successful `processLeadgenEvent` run whose
write to `contact_stage_assignments` (lines 222–230 of `route.ts`) is a plain
insert, not an upsert keyed on `(contact_id, pipeline_id)`. -/
theorem leadgen_assignment_insert_counterexample :
    processLeadgenEvent
      ⟨some ⟨"u1", "tok", none⟩, true,
       some ⟨"c1", none, none, none, none, none, "webhook"⟩, 0,
       ⟨some "k", true, "", some "a", some 2⟩, fun _ => none,
       some ⟨"p1", [⟨"s1", "New Lead", 0, none⟩]⟩,
       ⟨some "k", true, "", some "b", some 3⟩, fun _ => none, true⟩ =
      [Event.insertContact, Event.updateContactAnalysis "medium", Event.insertLog,
       Event.selectorInvoked, Event.insertAssignment (some "s1"), Event.insertLog] ∧
    Event.insertAssignment (some "s1") ∈
      processLeadgenEvent
        ⟨some ⟨"u1", "tok", none⟩, true,
         some ⟨"c1", none, none, none, none, none, "webhook"⟩, 0,
         ⟨some "k", true, "", some "a", some 2⟩, fun _ => none,
         some ⟨"p1", [⟨"s1", "New Lead", 0, none⟩]⟩,
         ⟨some "k", true, "", some "b", some 3⟩, fun _ => none, true⟩ ∧
    (Event.insertAssignment (some "s1")).isAssignmentWrite = true ∧
    (Event.insertAssignment (some "s1")).isPairKeyedUpsert = false := by
  refine ⟨by rfl, ?_, by rfl, by rfl⟩
  rw [show processLeadgenEvent
      ⟨some ⟨"u1", "tok", none⟩, true,
       some ⟨"c1", none, none, none, none, none, "webhook"⟩, 0,
       ⟨some "k", true, "", some "a", some 2⟩, fun _ => none,
       some ⟨"p1", [⟨"s1", "New Lead", 0, none⟩]⟩,
       ⟨some "k", true, "", some "b", some 3⟩, fun _ => none, true⟩ =
      [Event.insertContact, Event.updateContactAnalysis "medium", Event.insertLog,
       Event.selectorInvoked, Event.insertAssignment (some "s1"), Event.insertLog]
    from rfl]
  simp

/-- C4 amended: the reassignment writes of the re-analysis service and of the
messaging handler are upserts keyed on `(contact_id, pipeline_id)`, so
re-delivered message events replace rather than duplicate; but the initial
assignment written by `processLeadgenEvent` after lead ingestion is a plain
insert (each delivered leadgen event first inserts a fresh contact row, and
the table's `UNIQUE(contact_id, pipeline_id)` constraint would reject, not
replace, a duplicate). -/
theorem assignment_write_kinds (envL : LeadgenEnv) (envR : ReanalyzeEnv)
    (envM : MessagingEnv) :
    (∀ e ∈ processLeadgenEvent envL, e.isAssignmentWrite = true →
       ∃ sid, e = Event.insertAssignment sid) ∧
    (∀ e ∈ reanalyzeContactWithConversation envR, e.isAssignmentWrite = true →
       ∃ sid, e = Event.upsertAssignment sid ["contact_id", "pipeline_id"]) ∧
    (∀ e ∈ processMessagingEvent envM, e.isAssignmentWrite = true →
       ∃ sid, e = Event.upsertAssignment sid ["contact_id", "pipeline_id"]) := by
  refine ⟨?_, ?_, ?_⟩
  · intro e he hw
    rcases leadgen_mem envL e he with h | ⟨u, h⟩ | h | h | h | ⟨sid, h⟩
    · rw [h] at hw; exact absurd hw (by decide)
    · rw [h] at hw; simp [Event.isAssignmentWrite] at hw
    · rw [h] at hw; exact absurd hw (by decide)
    · rw [h] at hw; exact absurd hw (by decide)
    · rw [(Event.capi_disjoint e h).2] at hw; exact absurd hw (by decide)
    · exact ⟨sid, h⟩
  · intro e he hw
    rcases reanalyze_mem envR e he with ⟨u, h⟩ | h | h | h |
      ⟨ppl, sug, tok, ns, _, _, _, _, h⟩
    · rw [h] at hw; simp [Event.isAssignmentWrite] at hw
    · rw [h] at hw; exact absurd hw (by decide)
    · rw [h] at hw; exact absurd hw (by decide)
    · rw [(Event.capi_disjoint e h).2] at hw; exact absurd hw (by decide)
    · exact ⟨ns.id, h⟩
  · intro e he hw
    rcases messaging_mem envM e he with h | ⟨u, h⟩ | h | h |
      ⟨c, ppl, sug, tok, ns, _, _, _, _, _, h⟩
    · rw [h] at hw; exact absurd hw (by decide)
    · rw [h] at hw; simp [Event.isAssignmentWrite] at hw
    · rw [h] at hw; exact absurd hw (by decide)
    · rw [(Event.capi_disjoint e h).2] at hw; exact absurd hw (by decide)
    · exact ⟨ns.id, h⟩

/-- C4 witness: a concrete re-analysis run that moves the contact performs
its assignment write as a pair-keyed upsert. -/
theorem assignment_write_kinds_witness :
    reanalyzeContactWithConversation
      ⟨⟨"c1", none, none, none, none, none, "webhook"⟩, ⟨"u1", "tok", none⟩,
       ⟨some "k", true, "", some "a", some 2⟩, fun _ => none,
       some ⟨some "high", true⟩, some "s1",
       some ⟨"p1", [⟨"s1", "New Lead", 0, none⟩, ⟨"s2", "Contacted", 1, none⟩]⟩,
       ⟨some "k", true, "", some "b", some 3⟩,
       (fun _ => some ⟨some "s2", some 1, some "r"⟩), true⟩ =
      [Event.updateContactAnalysis "high", Event.selectorInvoked,
       Event.upsertAssignment "s2" ["contact_id", "pipeline_id"], Event.insertLog] ∧
    (∃ sid, Event.upsertAssignment "s2" ["contact_id", "pipeline_id"] =
       Event.upsertAssignment sid ["contact_id", "pipeline_id"]) := by
  refine ⟨by rfl, ?_⟩
  refine (assignment_write_kinds
    ⟨none, true, none, 0, ⟨none, true, "", none, none⟩, fun _ => none, none,
     ⟨none, true, "", none, none⟩, fun _ => none, true⟩
    ⟨⟨"c1", none, none, none, none, none, "webhook"⟩, ⟨"u1", "tok", none⟩,
     ⟨some "k", true, "", some "a", some 2⟩, fun _ => none,
     some ⟨some "high", true⟩, some "s1",
     some ⟨"p1", [⟨"s1", "New Lead", 0, none⟩, ⟨"s2", "Contacted", 1, none⟩]⟩,
     ⟨some "k", true, "", some "b", some 3⟩,
     (fun _ => some ⟨some "s2", some 1, some "r"⟩), true⟩
    ⟨none, none, none, true, none, ⟨none, true, "", none, none⟩, fun _ => none,
     none, ⟨none, true, "", none, none⟩, fun _ => none, true⟩).2.1
    (Event.upsertAssignment "s2" ["contact_id", "pipeline_id"]) ?_ (by rfl)
  rw [show reanalyzeContactWithConversation
      ⟨⟨"c1", none, none, none, none, none, "webhook"⟩, ⟨"u1", "tok", none⟩,
       ⟨some "k", true, "", some "a", some 2⟩, fun _ => none,
       some ⟨some "high", true⟩, some "s1",
       some ⟨"p1", [⟨"s1", "New Lead", 0, none⟩, ⟨"s2", "Contacted", 1, none⟩]⟩,
       ⟨some "k", true, "", some "b", some 3⟩,
       (fun _ => some ⟨some "s2", some 1, some "r"⟩), true⟩ =
      [Event.updateContactAnalysis "high", Event.selectorInvoked,
       Event.upsertAssignment "s2" ["contact_id", "pipeline_id"], Event.insertLog]
    from rfl]
  simp

/-! ## C5 -/

/-- C5: in both re-analysis paths (the service and the messaging handler), a
write to `contact_stage_assignments` occurs only when the newly selected
stage differs from the current assignment's stage id, and when the selection
equals the current stage no assignment write occurs at all. -/
theorem reassignment_idempotent (envR : ReanalyzeEnv) (envM : MessagingEnv) :
    (∀ e ∈ reanalyzeContactWithConversation envR, e.isAssignmentWrite = true →
       ∃ (ppl : Pipeline) (sug : ContactStageSuggestion) (tok : Nat),
         envR.pipeline = some ppl ∧
         assignContactToStage envR.assignEnv envR.assignParse envR.contact.id
           (sortStages ppl.pipeline_stages) = .ok (sug, tok) ∧
         sug.recommended_stage_id ≠ envR.currentAssignmentStageId) ∧
    (∀ (ppl : Pipeline) (sug : ContactStageSuggestion) (tok : Nat),
       envR.pipeline = some ppl →
       assignContactToStage envR.assignEnv envR.assignParse envR.contact.id
         (sortStages ppl.pipeline_stages) = .ok (sug, tok) →
       sug.recommended_stage_id = envR.currentAssignmentStageId →
       ∀ e ∈ reanalyzeContactWithConversation envR, e.isAssignmentWrite = false) ∧
    (∀ e ∈ processMessagingEvent envM, e.isAssignmentWrite = true →
       ∃ (c : Contact) (ppl : Pipeline) (sug : ContactStageSuggestion) (tok : Nat),
         envM.matchingContact = some c ∧ envM.pipeline = some ppl ∧
         assignContactToStage envM.assignEnv envM.assignParse c.id
           (sortStages ppl.pipeline_stages) = .ok (sug, tok) ∧
         sug.recommended_stage_id ≠ envM.currentAssignmentStageId) ∧
    (∀ (c : Contact) (ppl : Pipeline) (sug : ContactStageSuggestion) (tok : Nat),
       envM.matchingContact = some c → envM.pipeline = some ppl →
       assignContactToStage envM.assignEnv envM.assignParse c.id
         (sortStages ppl.pipeline_stages) = .ok (sug, tok) →
       sug.recommended_stage_id = envM.currentAssignmentStageId →
       ∀ e ∈ processMessagingEvent envM, e.isAssignmentWrite = false) := by
  have hR : ∀ e ∈ reanalyzeContactWithConversation envR, e.isAssignmentWrite = true →
      ∃ (ppl : Pipeline) (sug : ContactStageSuggestion) (tok : Nat),
        envR.pipeline = some ppl ∧
        assignContactToStage envR.assignEnv envR.assignParse envR.contact.id
          (sortStages ppl.pipeline_stages) = .ok (sug, tok) ∧
        sug.recommended_stage_id ≠ envR.currentAssignmentStageId := by
    intro e he hw
    rcases reanalyze_mem envR e he with ⟨u, h⟩ | h | h | h |
      ⟨ppl, sug, tok, ns, hppl, hok, hid, hne, h⟩
    · rw [h] at hw; simp [Event.isAssignmentWrite] at hw
    · rw [h] at hw; exact absurd hw (by decide)
    · rw [h] at hw; exact absurd hw (by decide)
    · rw [(Event.capi_disjoint e h).2] at hw; exact absurd hw (by decide)
    · exact ⟨ppl, sug, tok, hppl, hok, fun hc => hne (hid.trans hc)⟩
  have hM : ∀ e ∈ processMessagingEvent envM, e.isAssignmentWrite = true →
      ∃ (c : Contact) (ppl : Pipeline) (sug : ContactStageSuggestion) (tok : Nat),
        envM.matchingContact = some c ∧ envM.pipeline = some ppl ∧
        assignContactToStage envM.assignEnv envM.assignParse c.id
          (sortStages ppl.pipeline_stages) = .ok (sug, tok) ∧
        sug.recommended_stage_id ≠ envM.currentAssignmentStageId := by
    intro e he hw
    rcases messaging_mem envM e he with h | ⟨u, h⟩ | h | h |
      ⟨c, ppl, sug, tok, ns, hc, hppl, hok, hid, hne, h⟩
    · rw [h] at hw; exact absurd hw (by decide)
    · rw [h] at hw; simp [Event.isAssignmentWrite] at hw
    · rw [h] at hw; exact absurd hw (by decide)
    · rw [(Event.capi_disjoint e h).2] at hw; exact absurd hw (by decide)
    · exact ⟨c, ppl, sug, tok, hc, hppl, hok, fun hcc => hne (hid.trans hcc)⟩
  refine ⟨hR, ?_, hM, ?_⟩
  · intro ppl sug tok hppl hok heq e he
    cases hwb : e.isAssignmentWrite with
    | false => rfl
    | true =>
        obtain ⟨ppl', sug', tok', hppl', hok', hne'⟩ := hR e he hwb
        rw [hppl] at hppl'
        injection hppl' with hpe
        rw [← hpe] at hok'
        rw [hok] at hok'
        injection hok' with hp'
        injection hp' with hsug' htok'
        rw [← hsug'] at hne'
        exact absurd heq hne'
  · intro c ppl sug tok hc hppl hok heq e he
    cases hwb : e.isAssignmentWrite with
    | false => rfl
    | true =>
        obtain ⟨c', ppl', sug', tok', hc', hppl', hok', hne'⟩ := hM e he hwb
        rw [hc] at hc'
        injection hc' with hce
        rw [hppl] at hppl'
        injection hppl' with hpe
        rw [← hce, ← hpe] at hok'
        rw [hok] at hok'
        injection hok' with hp'
        injection hp' with hsug' htok'
        rw [← hsug'] at hne'
        exact absurd heq hne'

/-- C5 witness: a concrete re-analysis whose selector returns the contact's
current stage performs no assignment write. -/
theorem reassignment_idempotent_witness :
    reanalyzeContactWithConversation
      ⟨⟨"c1", none, none, none, none, none, "webhook"⟩, ⟨"u1", "tok", none⟩,
       ⟨some "k", true, "", some "a", some 2⟩, fun _ => none,
       some ⟨some "high", true⟩, some "s1",
       some ⟨"p1", [⟨"s1", "New Lead", 0, none⟩, ⟨"s2", "Contacted", 1, none⟩]⟩,
       ⟨some "k", true, "", some "b", some 3⟩,
       (fun _ => some ⟨some "s1", some 1, some "r"⟩), true⟩ =
      [Event.updateContactAnalysis "high", Event.selectorInvoked] ∧
    (Event.updateContactAnalysis "high").isAssignmentWrite = false ∧
    Event.selectorInvoked.isAssignmentWrite = false := by
  refine ⟨by rfl, ?_, ?_⟩
  · refine (reassignment_idempotent
      ⟨⟨"c1", none, none, none, none, none, "webhook"⟩, ⟨"u1", "tok", none⟩,
       ⟨some "k", true, "", some "a", some 2⟩, fun _ => none,
       some ⟨some "high", true⟩, some "s1",
       some ⟨"p1", [⟨"s1", "New Lead", 0, none⟩, ⟨"s2", "Contacted", 1, none⟩]⟩,
       ⟨some "k", true, "", some "b", some 3⟩,
       (fun _ => some ⟨some "s1", some 1, some "r"⟩), true⟩
      ⟨none, none, none, true, none, ⟨none, true, "", none, none⟩, fun _ => none,
       none, ⟨none, true, "", none, none⟩, fun _ => none, true⟩).2.1
      ⟨"p1", [⟨"s1", "New Lead", 0, none⟩, ⟨"s2", "Contacted", 1, none⟩]⟩
      ⟨"c1", some "s1", 1, "r"⟩ 3 (by rfl) (by rfl) (by rfl)
      (Event.updateContactAnalysis "high") ?_
    rw [show reanalyzeContactWithConversation
        ⟨⟨"c1", none, none, none, none, none, "webhook"⟩, ⟨"u1", "tok", none⟩,
         ⟨some "k", true, "", some "a", some 2⟩, fun _ => none,
         some ⟨some "high", true⟩, some "s1",
         some ⟨"p1", [⟨"s1", "New Lead", 0, none⟩, ⟨"s2", "Contacted", 1, none⟩]⟩,
         ⟨some "k", true, "", some "b", some 3⟩,
         (fun _ => some ⟨some "s1", some 1, some "r"⟩), true⟩ =
        [Event.updateContactAnalysis "high", Event.selectorInvoked] from rfl]
    simp
  · rfl

/-! ## C6 -/

/-- In `processLeadgenEvent`, any CAPI attempt is preceded by the committed
assignment insert: the trace before the first CAPI effect already holds an
assignment write. -/
theorem leadgen_capi_after_assignment (envL : LeadgenEnv) (n : String)
    (hc : Event.capiSend n ∈ processLeadgenEvent envL) :
    ∃ e ∈ beforeCapi (processLeadgenEvent envL), e.isAssignmentWrite = true := by
  unfold processLeadgenEvent at hc ⊢
  cases hcfg : envL.fbConfig with
  | none => try rw [hcfg] at hc; simp at hc
  | some fbConfig =>
      try rw [hcfg] at hc
      try rw [hcfg]
      try dsimp only at hc
      try dsimp only
      by_cases hf : envL.fetchLeadOk = true
      · try rw [hf] at hc
        try rw [hf]
        try rw [if_neg (by decide)] at hc
        try rw [if_neg (by decide)]
        cases hct : envL.contact with
        | none => try rw [hct] at hc; simp at hc
        | some contact =>
            try rw [hct] at hc
            try rw [hct]
            try dsimp only at hc
            try dsimp only
            cases ha : analyzeContact envL.analyzeEnv envL.analyzeParse with
            | error err => try rw [ha] at hc; simp at hc
            | ok ar =>
                try rw [ha] at hc
                try rw [ha]
                try dsimp only at hc
                try dsimp only
                cases hp : envL.pipeline with
                | none => try rw [hp] at hc; simp at hc
                | some pipeline =>
                    try rw [hp] at hc
                    try rw [hp]
                    try dsimp only at hc
                    try dsimp only
                    by_cases hlen : pipeline.pipeline_stages.length = 0
                    · rw [if_pos hlen] at hc; simp at hc
                    · try rw [if_neg hlen] at hc
                      try rw [if_neg hlen]
                      cases hs : assignContactToStage envL.assignEnv envL.assignParse
                          contact.id (sortStages pipeline.pipeline_stages) with
                      | error err => try rw [hs] at hc; simp at hc
                      | ok sugtok =>
                          try rw [hs] at hc
                          try rw [hs]
                          try dsimp only at hc
                          try dsimp only
                          have hall : ∀ e ∈ ([Event.insertContact,
                              Event.updateContactAnalysis ar.analysis.urgency,
                              Event.insertLog] ++ [Event.selectorInvoked,
                              Event.insertAssignment sugtok.1.recommended_stage_id,
                              Event.insertLog]), (!e.isCapi) = true := by
                            intro e he
                            rcases (by simpa using he :
                              _ ∨ _ ∨ _ ∨ _ ∨ _ ∨ _) with
                              h | h | h | h | h | h <;> (rw [h]; rfl)
                          refine ⟨Event.insertAssignment
                            sugtok.1.recommended_stage_id, ?_, rfl⟩
                          unfold beforeCapi
                          rw [takeWhile_append_all _ _ _ hall]
                          exact List.mem_append_left _ (by simp)
      · rw [Bool.not_eq_true] at hf
        try rw [hf] at hc
        rw [if_pos (by decide)] at hc
        simp at hc

/-- The database writes of `processLeadgenEvent` do not depend on whether
`sendConversionEvent` resolves. -/
theorem leadgen_dbWrites_capiOk (envL : LeadgenEnv) (b b' : Bool) :
    dbWrites (processLeadgenEvent { envL with capiOk := b }) =
      dbWrites (processLeadgenEvent { envL with capiOk := b' }) := by
  unfold processLeadgenEvent
  dsimp only
  cases hcfg : envL.fbConfig with
  | none => rfl
  | some fbConfig =>
      try dsimp only
      by_cases hf : envL.fetchLeadOk = true
      · rw [hf]
        rw [if_neg (by decide), if_neg (by decide)]
        cases hct : envL.contact with
        | none => rfl
        | some contact =>
            try dsimp only
            cases ha : analyzeContact envL.analyzeEnv envL.analyzeParse with
            | error err => rfl
            | ok ar =>
                try dsimp only
                cases hp : envL.pipeline with
                | none => rfl
                | some pipeline =>
                    try dsimp only
                    by_cases hlen : pipeline.pipeline_stages.length = 0
                    · rw [if_pos hlen, if_pos hlen]
                    · rw [if_neg hlen, if_neg hlen]
                      cases hs : assignContactToStage envL.assignEnv envL.assignParse
                          contact.id (sortStages pipeline.pipeline_stages) with
                      | error err => rfl
                      | ok sugtok =>
                          try dsimp only
                          rw [dbWrites_append_capiStep, dbWrites_append_capiStep]
      · rw [Bool.not_eq_true] at hf
        rw [hf]
        rw [if_pos (by decide), if_pos (by decide)]

/-- In `reanalyzeContactWithConversation`, any CAPI attempt is preceded by
the committed assignment upsert. -/
theorem reanalyze_capi_after_assignment (envR : ReanalyzeEnv) (m : String)
    (hc : Event.capiSend m ∈ reanalyzeContactWithConversation envR) :
    ∃ e ∈ beforeCapi (reanalyzeContactWithConversation envR),
      e.isAssignmentWrite = true := by
  unfold reanalyzeContactWithConversation at hc ⊢
  cases ha : analyzeContact envR.analyzeEnv envR.analyzeParse with
  | error err => try rw [ha] at hc; simp at hc
  | ok ar =>
      try rw [ha] at hc
      try rw [ha]
      try dsimp only at hc
      try dsimp only
      cases hp : envR.pipeline with
      | none => try rw [hp] at hc; simp at hc
      | some ppl =>
          try rw [hp] at hc
          try rw [hp]
          try dsimp only at hc
          try dsimp only
          by_cases hlen : ppl.pipeline_stages.length = 0
          · rw [if_pos hlen] at hc; simp at hc
          · try rw [if_neg hlen] at hc
            try rw [if_neg hlen]
            by_cases hmv : (analyzeConversationIntent ar.analysis.urgency
                envR.intentResult).should_move_stage = true
            · try rw [if_pos hmv] at hc
              try rw [if_pos hmv]
              cases hs : assignContactToStage envR.assignEnv envR.assignParse
                  envR.contact.id (sortStages ppl.pipeline_stages) with
              | error err => try rw [hs] at hc; simp at hc
              | ok sugtok =>
                  try rw [hs] at hc
                  try rw [hs]
                  try dsimp only at hc
                  try dsimp only
                  cases hfind : (sortStages ppl.pipeline_stages).find?
                      (fun s => some s.id = sugtok.1.recommended_stage_id) with
                  | none => try rw [hfind] at hc; simp at hc
                  | some ns =>
                      try rw [hfind] at hc
                      try rw [hfind]
                      try dsimp only at hc
                      try dsimp only
                      by_cases hne : some ns.id ≠ envR.currentAssignmentStageId
                      · try rw [if_pos hne] at hc
                        try rw [if_pos hne]
                        have hall : ∀ e ∈ ([Event.updateContactAnalysis
                            ((analyzeConversationIntent ar.analysis.urgency
                              envR.intentResult).urgency.getD ar.analysis.urgency)] ++
                            [Event.selectorInvoked,
                             Event.upsertAssignment ns.id ["contact_id", "pipeline_id"],
                             Event.insertLog]), (!e.isCapi) = true := by
                          intro e he
                          rcases (by simpa using he : _ ∨ _ ∨ _ ∨ _) with
                            h | h | h | h <;> (rw [h]; rfl)
                        refine ⟨Event.upsertAssignment ns.id
                          ["contact_id", "pipeline_id"], ?_, rfl⟩
                        unfold beforeCapi
                        rw [takeWhile_append_all _ _ _ hall]
                        exact List.mem_append_left _ (by simp)
                      · rw [if_neg hne] at hc; simp at hc
            · rw [if_neg hmv] at hc; simp at hc

/-- The database writes of `reanalyzeContactWithConversation` do not depend
on whether `sendConversionEvent` resolves. -/
theorem reanalyze_dbWrites_capiOk (envR : ReanalyzeEnv) (b b' : Bool) :
    dbWrites (reanalyzeContactWithConversation { envR with capiOk := b }) =
      dbWrites (reanalyzeContactWithConversation { envR with capiOk := b' }) := by
  unfold reanalyzeContactWithConversation
  dsimp only
  cases ha : analyzeContact envR.analyzeEnv envR.analyzeParse with
  | error err => rfl
  | ok ar =>
      try dsimp only
      cases hp : envR.pipeline with
      | none => rfl
      | some ppl =>
          try dsimp only
          by_cases hlen : ppl.pipeline_stages.length = 0
          · rw [if_pos hlen, if_pos hlen]
          · rw [if_neg hlen, if_neg hlen]
            by_cases hmv : (analyzeConversationIntent ar.analysis.urgency
                envR.intentResult).should_move_stage = true
            · rw [if_pos hmv, if_pos hmv]
              cases hs : assignContactToStage envR.assignEnv envR.assignParse
                  envR.contact.id (sortStages ppl.pipeline_stages) with
              | error err => rfl
              | ok sugtok =>
                  try dsimp only
                  cases hfind : (sortStages ppl.pipeline_stages).find?
                      (fun s => some s.id = sugtok.1.recommended_stage_id) with
                  | none => rfl
                  | some ns =>
                      try dsimp only
                      by_cases hne : some ns.id ≠ envR.currentAssignmentStageId
                      · rw [if_pos hne, if_pos hne]
                        rw [dbWrites_append_capiStep, dbWrites_append_capiStep]
                      · rw [if_neg hne, if_neg hne]
            · rw [if_neg hmv, if_neg hmv]

/-- C6: in both orchestrator paths that export, the assignment write is in
the trace before any CAPI attempt, and the database writes (assignment and
contact state) are identical whether `sendConversionEvent` resolves or
throws — the failure is absorbed by the local catch and undoes nothing. -/
theorem capi_export_isolation (envL : LeadgenEnv) (envR : ReanalyzeEnv)
    (n m : String) (b b' : Bool) :
    (Event.capiSend n ∈ processLeadgenEvent envL →
       ∃ e ∈ beforeCapi (processLeadgenEvent envL), e.isAssignmentWrite = true) ∧
    dbWrites (processLeadgenEvent { envL with capiOk := b }) =
      dbWrites (processLeadgenEvent { envL with capiOk := b' }) ∧
    (Event.capiSend m ∈ reanalyzeContactWithConversation envR →
       ∃ e ∈ beforeCapi (reanalyzeContactWithConversation envR),
         e.isAssignmentWrite = true) ∧
    dbWrites (reanalyzeContactWithConversation { envR with capiOk := b }) =
      dbWrites (reanalyzeContactWithConversation { envR with capiOk := b' }) :=
  ⟨leadgen_capi_after_assignment envL n, leadgen_dbWrites_capiOk envL b b',
   reanalyze_capi_after_assignment envR m, reanalyze_dbWrites_capiOk envR b b'⟩

/-- C6 witness: a concrete leadgen run whose stage carries a CAPI event name
and whose export throws: the assignment insert precedes the attempt, and the
database writes match those of the resolving run. -/
theorem capi_export_isolation_witness :
    processLeadgenEvent
      ⟨some ⟨"u1", "tok", some "ds"⟩, true,
       some ⟨"c1", none, none, none, none, none, "webhook"⟩, 0,
       ⟨some "k", true, "", some "a", some 2⟩, fun _ => none,
       some ⟨"p1", [⟨"s1", "New Lead", 0, some "Lead"⟩]⟩,
       ⟨some "k", true, "", some "b", some 3⟩, fun _ => none, false⟩ =
      [Event.insertContact, Event.updateContactAnalysis "medium", Event.insertLog,
       Event.selectorInvoked, Event.insertAssignment (some "s1"), Event.insertLog,
       Event.capiSend "Lead", Event.capiFailLogged] ∧
    (∃ e ∈ beforeCapi (processLeadgenEvent
       ⟨some ⟨"u1", "tok", some "ds"⟩, true,
        some ⟨"c1", none, none, none, none, none, "webhook"⟩, 0,
        ⟨some "k", true, "", some "a", some 2⟩, fun _ => none,
        some ⟨"p1", [⟨"s1", "New Lead", 0, some "Lead"⟩]⟩,
        ⟨some "k", true, "", some "b", some 3⟩, fun _ => none, false⟩),
       e.isAssignmentWrite = true) ∧
    dbWrites (processLeadgenEvent
      ⟨some ⟨"u1", "tok", some "ds"⟩, true,
       some ⟨"c1", none, none, none, none, none, "webhook"⟩, 0,
       ⟨some "k", true, "", some "a", some 2⟩, fun _ => none,
       some ⟨"p1", [⟨"s1", "New Lead", 0, some "Lead"⟩]⟩,
       ⟨some "k", true, "", some "b", some 3⟩, fun _ => none, false⟩) =
    dbWrites (processLeadgenEvent
      ⟨some ⟨"u1", "tok", some "ds"⟩, true,
       some ⟨"c1", none, none, none, none, none, "webhook"⟩, 0,
       ⟨some "k", true, "", some "a", some 2⟩, fun _ => none,
       some ⟨"p1", [⟨"s1", "New Lead", 0, some "Lead"⟩]⟩,
       ⟨some "k", true, "", some "b", some 3⟩, fun _ => none, true⟩) := by
  have h := capi_export_isolation
    ⟨some ⟨"u1", "tok", some "ds"⟩, true,
     some ⟨"c1", none, none, none, none, none, "webhook"⟩, 0,
     ⟨some "k", true, "", some "a", some 2⟩, fun _ => none,
     some ⟨"p1", [⟨"s1", "New Lead", 0, some "Lead"⟩]⟩,
     ⟨some "k", true, "", some "b", some 3⟩, fun _ => none, false⟩
    ⟨⟨"c1", none, none, none, none, none, "webhook"⟩, ⟨"u1", "tok", none⟩,
     ⟨some "k", true, "", some "a", some 2⟩, fun _ => none,
     some ⟨some "high", true⟩, some "s1",
     some ⟨"p1", [⟨"s1", "New Lead", 0, none⟩]⟩,
     ⟨some "k", true, "", some "b", some 3⟩, fun _ => none, true⟩
    "Lead" "Lead" false true
  refine ⟨by rfl, h.1 ?_, h.2.1⟩
  rw [show processLeadgenEvent
      ⟨some ⟨"u1", "tok", some "ds"⟩, true,
       some ⟨"c1", none, none, none, none, none, "webhook"⟩, 0,
       ⟨some "k", true, "", some "a", some 2⟩, fun _ => none,
       some ⟨"p1", [⟨"s1", "New Lead", 0, some "Lead"⟩]⟩,
       ⟨some "k", true, "", some "b", some 3⟩, fun _ => none, false⟩ =
      [Event.insertContact, Event.updateContactAnalysis "medium", Event.insertLog,
       Event.selectorInvoked, Event.insertAssignment (some "s1"), Event.insertLog,
       Event.capiSend "Lead", Event.capiFailLogged] from rfl]
  simp

/-! ## C10 -/

/-- The stage-change flag of the keyword detector is set exactly when one of
the eight fixed keywords occurs in the lower-cased message. -/
theorem messagingStageDecision_fst (t u : String) :
    (messagingStageDecision t u).1 = true ↔
      (jsIncludes (jsToLower t) "buy" = true ∨
       jsIncludes (jsToLower t) "purchase" = true ∨
       jsIncludes (jsToLower t) "order" = true ∨
       jsIncludes (jsToLower t) "not interested" = true ∨
       jsIncludes (jsToLower t) "cancel" = true ∨
       jsIncludes (jsToLower t) "price" = true ∨
       jsIncludes (jsToLower t) "quote" = true ∨
       jsIncludes (jsToLower t) "cost" = true) := by
  have e1 : ((jsIncludes (jsToLower t) "buy" || jsIncludes (jsToLower t) "purchase" ||
      jsIncludes (jsToLower t) "order") = true) ↔
      (jsIncludes (jsToLower t) "buy" = true ∨
       jsIncludes (jsToLower t) "purchase" = true ∨
       jsIncludes (jsToLower t) "order" = true) := by
    simp [or_assoc]
  have e2 : ((jsIncludes (jsToLower t) "not interested" ||
      jsIncludes (jsToLower t) "cancel") = true) ↔
      (jsIncludes (jsToLower t) "not interested" = true ∨
       jsIncludes (jsToLower t) "cancel" = true) := by
    simp
  have e3 : ((jsIncludes (jsToLower t) "price" || jsIncludes (jsToLower t) "quote" ||
      jsIncludes (jsToLower t) "cost") = true) ↔
      (jsIncludes (jsToLower t) "price" = true ∨
       jsIncludes (jsToLower t) "quote" = true ∨
       jsIncludes (jsToLower t) "cost" = true) := by
    simp [or_assoc]
  unfold messagingStageDecision
  dsimp only
  by_cases h1 : jsIncludes (jsToLower t) "buy" = true ∨
      jsIncludes (jsToLower t) "purchase" = true ∨
      jsIncludes (jsToLower t) "order" = true
  · rw [if_pos (e1.mpr h1)]
    refine ⟨fun _ => ?_, fun _ => rfl⟩
    exact h1.elim Or.inl (fun h => h.elim (fun hb => Or.inr (Or.inl hb))
      (fun hc => Or.inr (Or.inr (Or.inl hc))))
  · rw [if_neg (fun hb => h1 (e1.mp hb))]
    by_cases h2 : jsIncludes (jsToLower t) "not interested" = true ∨
        jsIncludes (jsToLower t) "cancel" = true
    · rw [if_pos (e2.mpr h2)]
      refine ⟨fun _ => ?_, fun _ => rfl⟩
      exact Or.inr (Or.inr (Or.inr (h2.elim Or.inl (fun he => Or.inr (Or.inl he)))))
    · rw [if_neg (fun hb => h2 (e2.mp hb))]
      by_cases h3 : jsIncludes (jsToLower t) "price" = true ∨
          jsIncludes (jsToLower t) "quote" = true ∨
          jsIncludes (jsToLower t) "cost" = true
      · rw [if_pos (e3.mpr h3)]
        refine ⟨fun _ => ?_, fun _ => rfl⟩
        exact Or.inr (Or.inr (Or.inr (Or.inr (Or.inr (h3.elim Or.inl
          (fun h => h.elim (fun hg => Or.inr (Or.inl hg))
            (fun hh => Or.inr (Or.inr hh))))))))
      · rw [if_neg (fun hb => h3 (e3.mp hb))]
        refine ⟨fun hb => absurd hb Bool.false_ne_true, fun hk => ?_⟩
        rcases hk with h | h | h | h | h | h | h | h
        · exact absurd (Or.inl h) h1
        · exact absurd (Or.inr (Or.inl h)) h1
        · exact absurd (Or.inr (Or.inr h)) h1
        · exact absurd (Or.inl h) h2
        · exact absurd (Or.inr h) h2
        · exact absurd (Or.inl h) h3
        · exact absurd (Or.inr (Or.inl h)) h3
        · exact absurd (Or.inr (Or.inr h)) h3

/-- The urgency the keyword detector emits, by keyword class and code
priority. -/
theorem messagingStageDecision_snd (t u : String) :
    ((jsIncludes (jsToLower t) "buy" = true ∨
      jsIncludes (jsToLower t) "purchase" = true ∨
      jsIncludes (jsToLower t) "order" = true) →
      (messagingStageDecision t u).2 = "high") ∧
    (¬(jsIncludes (jsToLower t) "buy" = true ∨
       jsIncludes (jsToLower t) "purchase" = true ∨
       jsIncludes (jsToLower t) "order" = true) →
      (jsIncludes (jsToLower t) "not interested" = true ∨
       jsIncludes (jsToLower t) "cancel" = true) →
      (messagingStageDecision t u).2 = "low") ∧
    (¬(jsIncludes (jsToLower t) "buy" = true ∨
       jsIncludes (jsToLower t) "purchase" = true ∨
       jsIncludes (jsToLower t) "order" = true) →
      ¬(jsIncludes (jsToLower t) "not interested" = true ∨
        jsIncludes (jsToLower t) "cancel" = true) →
      (jsIncludes (jsToLower t) "price" = true ∨
       jsIncludes (jsToLower t) "quote" = true ∨
       jsIncludes (jsToLower t) "cost" = true) →
      (messagingStageDecision t u).2 = "medium") ∧
    (¬(jsIncludes (jsToLower t) "buy" = true ∨
       jsIncludes (jsToLower t) "purchase" = true ∨
       jsIncludes (jsToLower t) "order" = true) →
      ¬(jsIncludes (jsToLower t) "not interested" = true ∨
        jsIncludes (jsToLower t) "cancel" = true) →
      ¬(jsIncludes (jsToLower t) "price" = true ∨
        jsIncludes (jsToLower t) "quote" = true ∨
        jsIncludes (jsToLower t) "cost" = true) →
      (messagingStageDecision t u).2 = u) := by
  have e1 : ((jsIncludes (jsToLower t) "buy" || jsIncludes (jsToLower t) "purchase" ||
      jsIncludes (jsToLower t) "order") = true) ↔
      (jsIncludes (jsToLower t) "buy" = true ∨
       jsIncludes (jsToLower t) "purchase" = true ∨
       jsIncludes (jsToLower t) "order" = true) := by
    simp [or_assoc]
  have e2 : ((jsIncludes (jsToLower t) "not interested" ||
      jsIncludes (jsToLower t) "cancel") = true) ↔
      (jsIncludes (jsToLower t) "not interested" = true ∨
       jsIncludes (jsToLower t) "cancel" = true) := by
    simp
  have e3 : ((jsIncludes (jsToLower t) "price" || jsIncludes (jsToLower t) "quote" ||
      jsIncludes (jsToLower t) "cost") = true) ↔
      (jsIncludes (jsToLower t) "price" = true ∨
       jsIncludes (jsToLower t) "quote" = true ∨
       jsIncludes (jsToLower t) "cost" = true) := by
    simp [or_assoc]
  unfold messagingStageDecision
  dsimp only
  by_cases h1 : jsIncludes (jsToLower t) "buy" = true ∨
      jsIncludes (jsToLower t) "purchase" = true ∨
      jsIncludes (jsToLower t) "order" = true
  · rw [if_pos (e1.mpr h1)]
    exact ⟨fun _ => rfl, fun hn _ => absurd h1 hn, fun hn _ _ => absurd h1 hn,
           fun hn _ _ => absurd h1 hn⟩
  · rw [if_neg (fun hb => h1 (e1.mp hb))]
    by_cases h2 : jsIncludes (jsToLower t) "not interested" = true ∨
        jsIncludes (jsToLower t) "cancel" = true
    · rw [if_pos (e2.mpr h2)]
      exact ⟨fun hb => absurd hb h1, fun _ _ => rfl, fun _ hn _ => absurd h2 hn,
             fun _ hn _ => absurd h2 hn⟩
    · rw [if_neg (fun hb => h2 (e2.mp hb))]
      by_cases h3 : jsIncludes (jsToLower t) "price" = true ∨
          jsIncludes (jsToLower t) "quote" = true ∨
          jsIncludes (jsToLower t) "cost" = true
      · rw [if_pos (e3.mpr h3)]
        exact ⟨fun hb => absurd hb h1, fun _ hb2 => absurd hb2 h2,
               fun _ _ _ => rfl, fun _ _ hn => absurd h3 hn⟩
      · rw [if_neg (fun hb => h3 (e3.mp hb))]
        exact ⟨fun hb => absurd hb h1, fun _ hb2 => absurd hb2 h2,
               fun _ _ hb3 => absurd hb3 h3, fun _ _ _ => rfl⟩

/-- C10: in the messaging handler, once the guards pass (text present,
config and webhook-sourced contact matched, default pipeline with stages,
analyzer resolves), stage re-selection is invoked iff the lower-cased latest
message contains one of the eight fixed keywords; the urgency written to the
contact's analysis is the keyword detector's output, which is "high" for
buy/purchase/order, "low" for not interested/cancel (when no high keyword),
"medium" for price/quote/cost (when no higher-priority keyword), and the
model-derived urgency when no keyword occurs. -/
theorem keyword_gate_and_urgency_override
    (envM : MessagingEnv) (t : String) (cfg : FacebookConfig) (c : Contact)
    (ppl : Pipeline) (ar : AnalyzeResult)
    (ht : envM.messageText = some t) (hcfg : envM.fbConfig = some cfg)
    (hct : envM.matchingContact = some c) (hsrc : c.source = "webhook")
    (hp : envM.pipeline = some ppl) (hlen : ¬ppl.pipeline_stages.length = 0)
    (har : analyzeContact envM.analyzeEnv envM.analyzeParse = .ok ar) :
    (Event.selectorInvoked ∈ processMessagingEvent envM ↔
       (jsIncludes (jsToLower t) "buy" = true ∨
        jsIncludes (jsToLower t) "purchase" = true ∨
        jsIncludes (jsToLower t) "order" = true ∨
        jsIncludes (jsToLower t) "not interested" = true ∨
        jsIncludes (jsToLower t) "cancel" = true ∨
        jsIncludes (jsToLower t) "price" = true ∨
        jsIncludes (jsToLower t) "quote" = true ∨
        jsIncludes (jsToLower t) "cost" = true)) ∧
    (∀ u, Event.updateContactAnalysis u ∈ processMessagingEvent envM →
       u = (messagingStageDecision t ar.analysis.urgency).2) ∧
    ((jsIncludes (jsToLower t) "buy" = true ∨
      jsIncludes (jsToLower t) "purchase" = true ∨
      jsIncludes (jsToLower t) "order" = true) →
      (messagingStageDecision t ar.analysis.urgency).2 = "high") ∧
    (¬(jsIncludes (jsToLower t) "buy" = true ∨
       jsIncludes (jsToLower t) "purchase" = true ∨
       jsIncludes (jsToLower t) "order" = true) →
      (jsIncludes (jsToLower t) "not interested" = true ∨
       jsIncludes (jsToLower t) "cancel" = true) →
      (messagingStageDecision t ar.analysis.urgency).2 = "low") ∧
    (¬(jsIncludes (jsToLower t) "buy" = true ∨
       jsIncludes (jsToLower t) "purchase" = true ∨
       jsIncludes (jsToLower t) "order" = true) →
      ¬(jsIncludes (jsToLower t) "not interested" = true ∨
        jsIncludes (jsToLower t) "cancel" = true) →
      (jsIncludes (jsToLower t) "price" = true ∨
       jsIncludes (jsToLower t) "quote" = true ∨
       jsIncludes (jsToLower t) "cost" = true) →
      (messagingStageDecision t ar.analysis.urgency).2 = "medium") ∧
    (¬(jsIncludes (jsToLower t) "buy" = true ∨
       jsIncludes (jsToLower t) "purchase" = true ∨
       jsIncludes (jsToLower t) "order" = true) →
      ¬(jsIncludes (jsToLower t) "not interested" = true ∨
        jsIncludes (jsToLower t) "cancel" = true) →
      ¬(jsIncludes (jsToLower t) "price" = true ∨
        jsIncludes (jsToLower t) "quote" = true ∨
        jsIncludes (jsToLower t) "cost" = true) →
      (messagingStageDecision t ar.analysis.urgency).2 = ar.analysis.urgency) := by
  obtain ⟨hcl1, hcl2, hcl3, hcl4⟩ := messagingStageDecision_snd t ar.analysis.urgency
  have hfst := messagingStageDecision_fst t ar.analysis.urgency
  have hmsg : ∀ e', e' ∈ (if envM.messageInsertOk then [Event.insertMessage] else []) →
      e' = Event.insertMessage := by
    intro e' he'
    by_cases hio : envM.messageInsertOk = true
    · rw [if_pos hio] at he'; simpa using he'
    · rw [Bool.not_eq_true] at hio; rw [hio] at he'; simp at he'
  refine ⟨?_, ?_, hcl1, hcl2, hcl3, hcl4⟩ <;>
    (unfold processMessagingEvent
     rw [ht, hcfg, hct]
     dsimp only
     rw [if_neg (by rw [hsrc]; exact fun hcon => hcon rfl)]
     rw [hp]
     dsimp only
     rw [if_neg hlen, har]
     dsimp only)
  · cases hd : (messagingStageDecision t ar.analysis.urgency).1 with
    | false =>
        rw [if_neg Bool.false_ne_true]
        have hnk : ¬(jsIncludes (jsToLower t) "buy" = true ∨
            jsIncludes (jsToLower t) "purchase" = true ∨
            jsIncludes (jsToLower t) "order" = true ∨
            jsIncludes (jsToLower t) "not interested" = true ∨
            jsIncludes (jsToLower t) "cancel" = true ∨
            jsIncludes (jsToLower t) "price" = true ∨
            jsIncludes (jsToLower t) "quote" = true ∨
            jsIncludes (jsToLower t) "cost" = true) := by
          intro hk
          rw [hfst.mpr hk] at hd
          cases hd
        refine iff_of_false ?_ hnk
        intro hmem
        rw [List.mem_append] at hmem
        rcases hmem with hmem | hmem
        · exact absurd (hmsg _ hmem) (by decide)
        · simp at hmem
    | true =>
        rw [if_pos rfl]
        refine iff_of_true ?_ (hfst.mp hd)
        cases hs : assignContactToStage envM.assignEnv envM.assignParse c.id
            (sortStages ppl.pipeline_stages) with
        | error err => exact List.mem_append_right _ (by simp)
        | ok sugtok =>
            try dsimp only
            cases hfind : (sortStages ppl.pipeline_stages).find?
                (fun s => some s.id = sugtok.1.recommended_stage_id) with
            | none => exact List.mem_append_right _ (by simp)
            | some ns =>
                try dsimp only
                by_cases hne : some ns.id ≠ envM.currentAssignmentStageId
                · rw [if_pos hne]
                  exact List.mem_append_left _ (List.mem_append_right _ (by simp))
                · rw [if_neg hne]
                  exact List.mem_append_right _ (by simp)
  · intro u hmem
    revert hmem
    cases hd : (messagingStageDecision t ar.analysis.urgency).1 with
    | false =>
        rw [if_neg Bool.false_ne_true]
        intro hmem
        rw [List.mem_append] at hmem
        rcases hmem with hmem | hmem
        · exact absurd (hmsg _ hmem) (by simp)
        · simpa using hmem
    | true =>
        rw [if_pos rfl]
        cases hs : assignContactToStage envM.assignEnv envM.assignParse c.id
            (sortStages ppl.pipeline_stages) with
        | error err =>
            intro hmem
            rw [List.mem_append] at hmem
            rcases hmem with hmem | hmem
            · rw [List.mem_append] at hmem
              rcases hmem with hmem | hmem
              · exact absurd (hmsg _ hmem) (by simp)
              · simpa using hmem
            · simp at hmem
        | ok sugtok =>
            try dsimp only
            cases hfind : (sortStages ppl.pipeline_stages).find?
                (fun s => some s.id = sugtok.1.recommended_stage_id) with
            | none =>
                intro hmem
                rw [List.mem_append] at hmem
                rcases hmem with hmem | hmem
                · rw [List.mem_append] at hmem
                  rcases hmem with hmem | hmem
                  · exact absurd (hmsg _ hmem) (by simp)
                  · simpa using hmem
                · simp at hmem
            | some ns =>
                try dsimp only
                by_cases hne : some ns.id ≠ envM.currentAssignmentStageId
                · rw [if_pos hne]
                  intro hmem
                  rw [List.mem_append] at hmem
                  rcases hmem with hmem | hmem
                  · rw [List.mem_append] at hmem
                    rcases hmem with hmem | hmem
                    · rw [List.mem_append] at hmem
                      rcases hmem with hmem | hmem
                      · exact absurd (hmsg _ hmem) (by simp)
                      · simpa using hmem
                    · simp at hmem
                  · have hcapi := capiStep_all_capi _ _ _ _ hmem
                    exact absurd hcapi (by simp [Event.isCapi])
                · rw [if_neg hne]
                  intro hmem
                  rw [List.mem_append] at hmem
                  rcases hmem with hmem | hmem
                  · rw [List.mem_append] at hmem
                    rcases hmem with hmem | hmem
                    · exact absurd (hmsg _ hmem) (by simp)
                    · simpa using hmem
                  · simp at hmem

/-- C10 witness: a concrete inbound message "what is the price?" triggers
re-selection and stores urgency "medium", overriding the model's "high". -/
theorem keyword_gate_and_urgency_override_witness :
    processMessagingEvent
      ⟨some "what is the price?", some ⟨"u1", "tok", none⟩,
       some ⟨"c1", none, none, none, none, none, "webhook"⟩, true,
       some ⟨"p1", [⟨"s1", "New Lead", 0, none⟩, ⟨"s2", "Contacted", 1, none⟩]⟩,
       ⟨some "k", true, "", some "a", some 2⟩,
       (fun _ => some ⟨some "s", some "i", some "high", some []⟩), some "s1",
       ⟨some "k", true, "", some "b", some 3⟩,
       (fun _ => some ⟨some "s2", some 1, some "r"⟩), true⟩ =
      [Event.insertMessage, Event.updateContactAnalysis "medium",
       Event.selectorInvoked,
       Event.upsertAssignment "s2" ["contact_id", "pipeline_id"]] ∧
    Event.selectorInvoked ∈
      processMessagingEvent
        ⟨some "what is the price?", some ⟨"u1", "tok", none⟩,
         some ⟨"c1", none, none, none, none, none, "webhook"⟩, true,
         some ⟨"p1", [⟨"s1", "New Lead", 0, none⟩, ⟨"s2", "Contacted", 1, none⟩]⟩,
         ⟨some "k", true, "", some "a", some 2⟩,
         (fun _ => some ⟨some "s", some "i", some "high", some []⟩), some "s1",
         ⟨some "k", true, "", some "b", some 3⟩,
         (fun _ => some ⟨some "s2", some 1, some "r"⟩), true⟩ ∧
    jsIncludes (jsToLower "what is the price?") "price" = true ∧
    (messagingStageDecision "what is the price?" "high").2 = "medium" := by
  have h := keyword_gate_and_urgency_override
    ⟨some "what is the price?", some ⟨"u1", "tok", none⟩,
     some ⟨"c1", none, none, none, none, none, "webhook"⟩, true,
     some ⟨"p1", [⟨"s1", "New Lead", 0, none⟩, ⟨"s2", "Contacted", 1, none⟩]⟩,
     ⟨some "k", true, "", some "a", some 2⟩,
     (fun _ => some ⟨some "s", some "i", some "high", some []⟩), some "s1",
     ⟨some "k", true, "", some "b", some 3⟩,
     (fun _ => some ⟨some "s2", some 1, some "r"⟩), true⟩
    "what is the price?" ⟨"u1", "tok", none⟩
    ⟨"c1", none, none, none, none, none, "webhook"⟩
    ⟨"p1", [⟨"s1", "New Lead", 0, none⟩, ⟨"s2", "Contacted", 1, none⟩]⟩
    ⟨⟨"s", "i", "high", []⟩, 2⟩
    rfl rfl rfl rfl rfl (by decide) (by rfl)
  refine ⟨by rfl, ?_, by decide, ?_⟩
  · exact h.1.mpr (Or.inr (Or.inr (Or.inr (Or.inr (Or.inr (Or.inl (by decide)))))))
  · exact h.2.2.2.2.1 (by decide) (by decide) (Or.inl (by decide))

end Barra
